import Mathlib

/-!
# FreeRTOScpp: task lifecycle wrapper and periodic process

A shallow embedding of `src/src/TaskCPP.h` (class `TaskCPP`, enum `TaskPriority`)
and `src/src/Process.h` (class `Process`, enum `ProcPriority`).

Conventions of the embedding

* An object is a record of its member variables.  The members of a class derived
  from `TaskCPP` sit in the field `derived`.
* Every call of a virtual hook and every call into the RTOS is appended to the
  field `trace`, oldest first, so that "which calls, how often, in which order"
  can be stated about the code.
* Virtual dispatch is a table of hook bodies (`VTable`).  A hook body works on the
  members of the derived class and may call further hooks.
* The preprocessor switch `INCLUDE_vTaskDelete` and the RTOS constants
  `tskIDLE_PRIORITY`, `portTICK_PERIOD_MS`, `configMAX_PRIORITIES` come from the
  RTOS configuration, which is not part of the repository: they are parameters.
* A call that never returns to its caller yields `none`.
-/

/-! ## enum TaskPriority (TaskCPP.h 64-71) and enum ProcPriority (Process.h 9-17) -/

/-- The value of a C++ comparison used as an integer: 1 when it holds, 0 otherwise. -/
def boolToInt (b : Bool) : Int := if b then 1 else 0

/-- TaskPrio_Idle = 0 -/
def TaskPrio_Idle : Int := 0

/-- TaskPrio_Low = ((configMAX_PRIORITIES) > 1) -/
def TaskPrio_Low (configMAX_PRIORITIES : Int) : Int :=
  boolToInt (decide (configMAX_PRIORITIES > 1))

/-- TaskPrio_HMI = (TaskPrio_Low + ((configMAX_PRIORITIES) > 5)) -/
def TaskPrio_HMI (configMAX_PRIORITIES : Int) : Int :=
  TaskPrio_Low configMAX_PRIORITIES + boolToInt (decide (configMAX_PRIORITIES > 5))

/-- TaskPrio_Mid = ((configMAX_PRIORITIES) / 2), the division of C++ (towards zero). -/
def TaskPrio_Mid (configMAX_PRIORITIES : Int) : Int :=
  Int.tdiv configMAX_PRIORITIES 2

/-- TaskPrio_High = ((configMAX_PRIORITIES)-1 - ((configMAX_PRIORITIES) > 4)) -/
def TaskPrio_High (configMAX_PRIORITIES : Int) : Int :=
  configMAX_PRIORITIES - 1 - boolToInt (decide (configMAX_PRIORITIES > 4))

/-- TaskPrio_Highest = ((configMAX_PRIORITIES)-1) -/
def TaskPrio_Highest (configMAX_PRIORITIES : Int) : Int :=
  configMAX_PRIORITIES - 1

/-- A value of the C++ enumeration type ProcPriority: an integer. -/
abbrev ProcPriority := Int

/-- HIGHEST_PRIORITY = TaskPrio_Highest -/
def HIGHEST_PRIORITY (configMAX_PRIORITIES : Int) : ProcPriority :=
  TaskPrio_Highest configMAX_PRIORITIES

/-- HIGH_PRIORITY = TaskPrio_High -/
def HIGH_PRIORITY (configMAX_PRIORITIES : Int) : ProcPriority :=
  TaskPrio_High configMAX_PRIORITIES

/-- MEDIUM_PRIORITY = TaskPrio_Mid -/
def MEDIUM_PRIORITY (configMAX_PRIORITIES : Int) : ProcPriority :=
  TaskPrio_Mid configMAX_PRIORITIES

/-- LOW_PRIORITY = TaskPrio_Low -/
def LOW_PRIORITY (configMAX_PRIORITIES : Int) : ProcPriority :=
  TaskPrio_Low configMAX_PRIORITIES

/-- IDLE_PRIORITY = TaskPrio_Idle -/
def IDLE_PRIORITY : ProcPriority := TaskPrio_Idle

/-- NUM_PRIORITY_LEVELS, the enumerator after IDLE_PRIORITY: its value plus one. -/
def NUM_PRIORITY_LEVELS : ProcPriority := IDLE_PRIORITY + 1

/-- The cast (UBaseType_t)x of an integer: UBaseType_t is an unsigned 32-bit type. -/
def toUBaseType (x : Int) : Nat := (x % 2 ^ 32).toNat

/-! ## class TaskCPP (TaskCPP.h 74-280) -/

/-- enum TaskStateEnum (TaskCPP.h 78-83). -/
inductive TaskStateEnum where
  | Dead
  | Alive
  | Suspended
  deriving DecidableEq, Repr

/-- One entry of the call trace: a virtual hook of TaskCPP, a virtual hook of
Process, or a call into the RTOS with the arguments that matter. -/
inductive Call where
  | OnStart
  | OnResume
  | OnSuspend
  | OnDestroy
  | setup
  | cleanup
  | onEnable
  | onDisable
  | service
  | xTaskCreate (taskName : String) (priority : Nat)
  | vTaskResume (handle : Nat)
  | vTaskSuspend (handle : Nat)
  | vTaskDelete (handle : Nat)
  | vTaskDelay (ticks : Nat)
  deriving DecidableEq, Repr

/-- The members of a TaskCPP object (TaskCPP.h 78-87), the members of the derived
class, and what the RTOS side has seen.  TaskHandle 0 is NULL. -/
structure TaskCPP (ε : Type) where
  /-- enum TaskStateEnum TaskState -/
  TaskState : TaskStateEnum
  /-- const char * TaskName -/
  TaskName : String
  /-- UBaseType_t Priority -/
  Priority : Nat
  /-- TaskHandle_t TaskHandle, 0 for NULL -/
  TaskHandle : Nat
  /-- members of the derived class -/
  derived : ε
  /-- hook calls and RTOS calls so far, oldest first -/
  trace : List Call
  /-- number of native tasks the RTOS has created so far -/
  created : Nat
  deriving DecidableEq, Repr

/-- The virtual hooks OnStart, OnResume, OnDestroy, OnSuspend (TaskCPP.h 264-268):
each body maps the members of the derived class to their new value and lists the
further hook calls it makes. -/
structure VTable (ε : Type) where
  OnStart : ε → ε × List Call
  OnResume : ε → ε × List Call
  OnDestroy : ε → ε × List Call
  OnSuspend : ε → ε × List Call

namespace TaskCPP

variable {ε : Type}

/-- The hooks of TaskCPP itself, all with the empty body (TaskCPP.h 264-268). -/
def vtable : VTable ε where
  OnStart := fun e => (e, [])
  OnResume := fun e => (e, [])
  OnDestroy := fun e => (e, [])
  OnSuspend := fun e => (e, [])

/-- Record one call in the trace. -/
def emit (c : Call) (o : TaskCPP ε) : TaskCPP ε :=
  { o with trace := o.trace ++ [c] }

/-- Call a virtual hook: record it, run its body on the derived members and
record the calls the body makes. -/
def callHook (c : Call) (body : ε → ε × List Call) (o : TaskCPP ε) : TaskCPP ε :=
  { o with derived := (body o.derived).1, trace := o.trace ++ c :: (body o.derived).2 }

/-- Modelled from the spec: the RTOS operation create-task(entry, name, stack-size,
context, priority) → native handle, which is not part of the repository.  The call
xTaskCreate(StaticTask, TaskName, TASK_CPP_STACK_DEPTH, this, Priority, &TaskHandle)
stores a fresh non-null handle in TaskHandle; creation failure is not represented
(spec 4.1, failure semantics). -/
def xTaskCreate (o : TaskCPP ε) : TaskCPP ε :=
  { o with
    TaskHandle := o.created + 1
    created := o.created + 1
    trace := o.trace ++ [Call.xTaskCreate o.TaskName o.Priority] }

/-- TaskCPP(UBaseType_t priority) (TaskCPP.h 90-94).  TaskState has no initialiser
and the constructor does not assign it: it keeps what the storage held, uninit.
Priority keeps its default member initialiser tskIDLE_PRIORITY: the parameter
priority is not used. -/
def ctor (tskIDLE_PRIORITY : Nat) (uninit : TaskStateEnum) (derived : ε)
    (_priority : Nat) : TaskCPP ε where
  TaskState := uninit
  TaskName := "X"
  Priority := tskIDLE_PRIORITY
  TaskHandle := 0
  derived := derived
  trace := []
  created := 0

/-- TaskCPP(const char * const taskName, UBaseType_t priority) (TaskCPP.h 96-101).
TaskState keeps what the storage held, uninit. -/
def ctorNamed (uninit : TaskStateEnum) (derived : ε) (taskName : String)
    (priority : Nat) : TaskCPP ε where
  TaskState := uninit
  TaskName := taskName
  Priority := priority
  TaskHandle := 0
  derived := derived
  trace := []
  created := 0

/-- GetPriority (TaskCPP.h 103-106). -/
def GetPriority (o : TaskCPP ε) : Nat := o.Priority

/-- IsAlive (TaskCPP.h 134-137). -/
def IsAlive (o : TaskCPP ε) : Bool :=
  o.TaskState == TaskStateEnum.Alive || o.TaskState == TaskStateEnum.Suspended

/-- IsSuspended (TaskCPP.h 159-162). -/
def IsSuspended (o : TaskCPP ε) : Bool :=
  o.TaskState == TaskStateEnum.Suspended

/-- Delay (TaskCPP.h 129-132): vTaskDelay(period * portTICK_PERIOD_MS), the product
taken in 32-bit unsigned arithmetic. -/
def Delay (portTICK_PERIOD_MS : Nat) (period : Nat) (o : TaskCPP ε) : TaskCPP ε :=
  emit (Call.vTaskDelay ((period * portTICK_PERIOD_MS) % 2 ^ 32)) o

/-- Start (TaskCPP.h 164-199). -/
def Start (V : VTable ε) (INCLUDE_vTaskDelete : Bool) (o : TaskCPP ε) : TaskCPP ε :=
  match o.TaskState with
  | TaskStateEnum.Dead =>
    let o1 := callHook Call.OnStart V.OnStart { o with TaskState := TaskStateEnum.Alive }
    if INCLUDE_vTaskDelete then xTaskCreate o1
    else if o1.TaskHandle = 0 then xTaskCreate o1
    else o1
  | TaskStateEnum.Suspended =>
    let o1 := callHook Call.OnResume V.OnResume { o with TaskState := TaskStateEnum.Alive }
    emit (Call.vTaskResume o1.TaskHandle) o1
  | TaskStateEnum.Alive => o

/-- Pause (TaskCPP.h 201-215). -/
def Pause (V : VTable ε) (o : TaskCPP ε) : TaskCPP ε :=
  match o.TaskState with
  | TaskStateEnum.Alive =>
    let o1 := callHook Call.OnSuspend V.OnSuspend
      { o with TaskState := TaskStateEnum.Suspended }
    emit (Call.vTaskSuspend o1.TaskHandle) o1
  | TaskStateEnum.Suspended => o
  | TaskStateEnum.Dead => o

/-- The statements under case Suspended of Resume (TaskCPP.h 231-234), which case
Dead falls through to. -/
def resumeSuspended (V : VTable ε) (o : TaskCPP ε) : TaskCPP ε :=
  let o1 := callHook Call.OnResume V.OnResume { o with TaskState := TaskStateEnum.Alive }
  emit (Call.vTaskResume o1.TaskHandle) o1

/-- Resume (TaskCPP.h 224-239): case Dead calls Start() and has no break. -/
def Resume (V : VTable ε) (INCLUDE_vTaskDelete : Bool) (o : TaskCPP ε) : TaskCPP ε :=
  match o.TaskState with
  | TaskStateEnum.Dead => resumeSuspended V (Start V INCLUDE_vTaskDelete o)
  | TaskStateEnum.Suspended => resumeSuspended V o
  | TaskStateEnum.Alive => o

/-- The statements under case Alive of Stop (TaskCPP.h 248-256), which case
Suspended falls through to.  Without INCLUDE_vTaskDelete the loop
while (TaskHandle != NULL) vTaskDelay(portMAX_DELAY) does not change TaskHandle:
it is left at once when TaskHandle is NULL and never otherwise. -/
def stopAlive (V : VTable ε) (INCLUDE_vTaskDelete : Bool) (o : TaskCPP ε) :
    Option (TaskCPP ε) :=
  let o1 := callHook Call.OnDestroy V.OnDestroy { o with TaskState := TaskStateEnum.Dead }
  if INCLUDE_vTaskDelete then some (emit (Call.vTaskDelete o1.TaskHandle) o1)
  else if o1.TaskHandle = 0 then some o1
  else none

/-- Stop (TaskCPP.h 241-261): case Suspended calls vTaskResume and has no break. -/
def Stop (V : VTable ε) (INCLUDE_vTaskDelete : Bool) (o : TaskCPP ε) :
    Option (TaskCPP ε) :=
  match o.TaskState with
  | TaskStateEnum.Suspended =>
    stopAlive V INCLUDE_vTaskDelete (emit (Call.vTaskResume o.TaskHandle) o)
  | TaskStateEnum.Alive => stopAlive V INCLUDE_vTaskDelete o
  | TaskStateEnum.Dead => some o

/-- Run (TaskCPP.h 122-127): OnRun(), then Stop().  OnRun is the body of the
virtual function of that name; it yields none when it does not return. -/
def Run (V : VTable ε) (INCLUDE_vTaskDelete : Bool)
    (OnRun : TaskCPP ε → Option (TaskCPP ε)) (o : TaskCPP ε) : Option (TaskCPP ε) :=
  (OnRun o).bind (Stop V INCLUDE_vTaskDelete)

/-- The four lifecycle operations of the public interface. -/
inductive Op where
  | Start
  | Pause
  | Resume
  | Stop
  deriving DecidableEq, Repr

/-- One lifecycle call. -/
def call (V : VTable ε) (INCLUDE_vTaskDelete : Bool) (op : Op) (o : TaskCPP ε) :
    Option (TaskCPP ε) :=
  match op with
  | Op.Start => some (Start V INCLUDE_vTaskDelete o)
  | Op.Pause => some (Pause V o)
  | Op.Resume => some (Resume V INCLUDE_vTaskDelete o)
  | Op.Stop => Stop V INCLUDE_vTaskDelete o

/-- A finite sequence of lifecycle calls, in order; none when one of them does
not return. -/
def calls (V : VTable ε) (INCLUDE_vTaskDelete : Bool) :
    List Op → TaskCPP ε → Option (TaskCPP ε)
  | [], o => some o
  | op :: ops, o => (call V INCLUDE_vTaskDelete op o).bind (calls V INCLUDE_vTaskDelete ops)

/-- The edges of the lifecycle: Dead→Alive, Alive→Suspended, Suspended→Alive,
Alive→Dead, Suspended→Dead. -/
def Edge : TaskStateEnum → TaskStateEnum → Bool
  | TaskStateEnum.Dead, TaskStateEnum.Alive => true
  | TaskStateEnum.Alive, TaskStateEnum.Suspended => true
  | TaskStateEnum.Suspended, TaskStateEnum.Alive => true
  | TaskStateEnum.Alive, TaskStateEnum.Dead => true
  | TaskStateEnum.Suspended, TaskStateEnum.Dead => true
  | _, _ => false

end TaskCPP

/-! ## class Process (Process.h 19-177) -/

/-- enum RequestAction (Process.h 22-28). -/
inductive RequestAction where
  | None
  | Enable
  | Disable
  | Run
  deriving DecidableEq, Repr

/-- The members Process adds to TaskCPP (Process.h 28-32). -/
structure ProcessFields where
  /-- enum RequestAction PendingAction -/
  PendingAction : RequestAction
  /-- uint32_t Period -/
  Period : Nat
  /-- ProcPriority Priority -/
  Priority : ProcPriority
  deriving DecidableEq, Repr

/-- A Process object: a TaskCPP with the members of Process. -/
abbrev Process := TaskCPP ProcessFields

namespace Process

/-- The default member initialisers PendingAction = None, Period = 0,
Priority = IDLE_PRIORITY (Process.h 28-32). -/
def defaults : ProcessFields where
  PendingAction := RequestAction.None
  Period := 0
  Priority := IDLE_PRIORITY

/-- Assignment to the member PendingAction. -/
def setPendingAction (a : RequestAction) (p : Process) : Process :=
  { p with derived := { p.derived with PendingAction := a } }

/-- OnDestroy (Process.h 147-154): onDisable() when the pending action is Disable,
then cleanup(). -/
def OnDestroy (e : ProcessFields) : ProcessFields × List Call :=
  (e, (if e.PendingAction = RequestAction.Disable then [Call.onDisable] else [])
        ++ [Call.cleanup])

/-- OnResume (Process.h 156-159). -/
def OnResume (e : ProcessFields) : ProcessFields × List Call :=
  ({ e with PendingAction := RequestAction.Enable }, [])

/-- OnStop (Process.h 161-164); TaskCPP has no hook of this name and nothing
calls it. -/
def OnStop (e : ProcessFields) : ProcessFields × List Call :=
  ({ e with PendingAction := RequestAction.Disable }, [])

/-- The hooks of a Process: OnDestroy and OnResume are overridden, OnStart and
OnSuspend are those of TaskCPP. -/
def vtable : VTable ProcessFields where
  OnStart := TaskCPP.vtable.OnStart
  OnResume := OnResume
  OnDestroy := OnDestroy
  OnSuspend := TaskCPP.vtable.OnSuspend

/-- setPeriod (Process.h 91-94). -/
def setPeriod (period : Nat) (p : Process) : Process :=
  { p with derived := { p.derived with Period := period } }

/-- getPeriod (Process.h 96-99). -/
def getPeriod (p : Process) : Nat := p.derived.Period

/-- getPriority (Process.h 50-53). -/
def getPriority (p : Process) : ProcPriority := p.derived.Priority

/-- Process(ProcPriority priority, uint32_t period) (Process.h 35-41). -/
def ctor (tskIDLE_PRIORITY : Nat) (uninit : TaskStateEnum) (priority : ProcPriority)
    (period : Nat) : Process :=
  let p0 : Process := TaskCPP.ctor tskIDLE_PRIORITY uninit defaults (toUBaseType priority)
  let p1 : Process := { p0 with derived := { p0.derived with Priority := priority } }
  setPendingAction RequestAction.Disable (setPeriod period p1)

/-- Process(const char * const taskName, UBaseType_t priority, uint32_t period)
(Process.h 43-48). -/
def ctorNamed (uninit : TaskStateEnum) (taskName : String) (priority : Nat)
    (period : Nat) : Process :=
  let p0 : Process := TaskCPP.ctorNamed uninit defaults taskName priority
  setPendingAction RequestAction.Disable (setPeriod period p0)

/-- The statements of one pass through the body of while (true) in OnRun
(Process.h 65-87).  The result is the object after the pass and whether the pass
executed return. -/
def loopPass (INCLUDE_vTaskDelete : Bool) (portTICK_PERIOD_MS : Nat) (p : Process) :
    Option (Process × Bool) :=
  match p.derived.PendingAction with
  | RequestAction.Enable =>
    some (setPendingAction RequestAction.Run (TaskCPP.emit Call.onEnable p), false)
  | RequestAction.Disable =>
    some (TaskCPP.Pause vtable
      (setPendingAction RequestAction.None (TaskCPP.emit Call.onDisable p)), false)
  | RequestAction.Run =>
    let p1 := TaskCPP.emit Call.service p
    some (if p1.derived.Period > 0 then TaskCPP.Delay portTICK_PERIOD_MS p1.derived.Period p1
      else p1, false)
  | RequestAction.None =>
    (TaskCPP.Stop vtable INCLUDE_vTaskDelete p).map (fun q => (q, true))

/-- The loop while (true) of OnRun (Process.h 63-88) run on its own, without calls
from outside in between; none when it has not returned within fuel passes. -/
def loop (INCLUDE_vTaskDelete : Bool) (portTICK_PERIOD_MS : Nat) :
    Nat → Process → Option Process
  | 0, _ => none
  | fuel + 1, p =>
    match loopPass INCLUDE_vTaskDelete portTICK_PERIOD_MS p with
    | none => none
    | some (q, true) => some q
    | some (q, false) => loop INCLUDE_vTaskDelete portTICK_PERIOD_MS fuel q

/-- The statements of OnRun before the loop (Process.h 57-61). -/
def OnRunEntry (p : Process) : Process :=
  TaskCPP.emit Call.setup
    (if p.derived.PendingAction = RequestAction.Disable then TaskCPP.Pause vtable p else p)

/-- OnRun (Process.h 55-89). -/
def OnRun (INCLUDE_vTaskDelete : Bool) (portTICK_PERIOD_MS : Nat) (fuel : Nat)
    (p : Process) : Option Process :=
  loop INCLUDE_vTaskDelete portTICK_PERIOD_MS fuel (OnRunEntry p)

/-- disable (Process.h 101-104). -/
def disable (p : Process) : Process :=
  setPendingAction RequestAction.Disable p

/-- restart (Process.h 106-111). -/
def restart (INCLUDE_vTaskDelete : Bool) (p : Process) : Option Process :=
  (TaskCPP.Stop vtable INCLUDE_vTaskDelete p).map fun q =>
    TaskCPP.Start vtable INCLUDE_vTaskDelete (setPendingAction RequestAction.Enable q)

/-- isEnabled (Process.h 113-117). -/
def isEnabled (p : Process) : Bool :=
  TaskCPP.IsAlive p &&
    (p.derived.PendingAction != RequestAction.Disable &&
      p.derived.PendingAction != RequestAction.None)

/-- isNotDestroyed (Process.h 119). -/
def isNotDestroyed (p : Process) : Bool := TaskCPP.IsAlive p

/-- add (Process.h 121-134). -/
def add (INCLUDE_vTaskDelete : Bool) (enableIfNot : Bool) (p : Process) : Process :=
  let p1 := TaskCPP.Start vtable INCLUDE_vTaskDelete p
  if enableIfNot then setPendingAction RequestAction.Enable p1
  else TaskCPP.Pause vtable (setPendingAction RequestAction.Disable p1)

/-- enable (Process.h 136-139). -/
def enable (INCLUDE_vTaskDelete : Bool) (p : Process) : Process :=
  TaskCPP.Resume vtable INCLUDE_vTaskDelete p

/-- destroy (Process.h 141-144). -/
def destroy (p : Process) : Process :=
  setPendingAction RequestAction.None p

end Process

/-- Number of cleanup() calls in a trace. -/
def cleanupCount (t : List Call) : Nat := t.count Call.cleanup

/-- Whether a trace entry is a native task creation. -/
def Call.isCreate : Call → Bool
  | Call.xTaskCreate _ _ => true
  | _ => false

/-- Whether a trace entry is a native task deletion. -/
def Call.isDelete : Call → Bool
  | Call.vTaskDelete _ => true
  | _ => false

/-- A running, enabled Process: what the first constructor (priority 3, period 10,
zeroed storage), add(true), the entry of OnRun and one pass of its loop leave. -/
def Process.sampleRunning : Process where
  TaskState := TaskStateEnum.Alive
  TaskName := "X"
  Priority := 0
  TaskHandle := 1
  derived := { PendingAction := RequestAction.Run, Period := 10, Priority := 3 }
  trace := [Call.OnStart, Call.xTaskCreate "X" 0, Call.setup, Call.onEnable]
  created := 1

/-- A disabled Process whose loop has consumed the Disable: what the first
constructor (priority 3, period 10, zeroed storage), add(true), the entry of OnRun,
disable() and one pass of the loop leave. -/
def Process.sampleDisabled : Process where
  TaskState := TaskStateEnum.Suspended
  TaskName := "X"
  Priority := 0
  TaskHandle := 1
  derived := { PendingAction := RequestAction.None, Period := 10, Priority := 3 }
  trace := [Call.OnStart, Call.xTaskCreate "X" 0, Call.setup, Call.onDisable,
    Call.OnSuspend, Call.vTaskSuspend 1]
  created := 1

/-! ## Notions used to state the properties -/

/-- Number of service() calls in a trace. -/
def serviceCount (t : List Call) : Nat := t.count Call.service

/-- Whether a trace entry is a native delay. -/
def Call.isDelay : Call → Bool
  | Call.vTaskDelay _ => true
  | _ => false

/-- Whether a trace entry is one of the hooks of Process: setup, cleanup, onEnable,
onDisable, service. -/
def Call.isProcessHook : Call → Bool
  | Call.setup => true
  | Call.cleanup => true
  | Call.onEnable => true
  | Call.onDisable => true
  | Call.service => true
  | _ => false

/-- A table of hooks whose bodies call nothing but hooks of Process: the case of
TaskCPP itself, whose bodies are empty, and of Process. -/
def VTable.CallsProcessHooksOnly {ε : Type} (V : VTable ε) : Prop :=
  ∀ e c, (c ∈ (V.OnStart e).2 ∨ c ∈ (V.OnResume e).2 ∨ c ∈ (V.OnDestroy e).2 ∨
    c ∈ (V.OnSuspend e).2) → c.isProcessHook = true

/-- Among the calls one operation has added to the trace, the hook occurs exactly
once, the native call occurs exactly once, and the hook comes first. -/
def hookOnceBeforeNative (hook native : Call) (added : List Call) : Bool :=
  added.count hook == 1 && added.count native == 1 &&
    decide (added.indexOf hook < added.indexOf native)

/-- Resume as the specification words it, resume-or-start: from Dead what Start
does from Dead followed by the Suspended→Alive path of Start; from Suspended and
from Alive what Start does from that state. -/
def TaskCPP.resumeOrStart {ε : Type} (V : VTable ε) (INCLUDE_vTaskDelete : Bool)
    (o : TaskCPP ε) : TaskCPP ε :=
  match o.TaskState with
  | TaskStateEnum.Dead =>
    TaskCPP.Start V INCLUDE_vTaskDelete
      { TaskCPP.Start V INCLUDE_vTaskDelete o with TaskState := TaskStateEnum.Suspended }
  | TaskStateEnum.Suspended => TaskCPP.Start V INCLUDE_vTaskDelete o
  | TaskStateEnum.Alive => TaskCPP.Start V INCLUDE_vTaskDelete o

/-- The object after at most n passes of the loop of OnRun run on their own, and
whether the loop has executed return; none when a pass does not return. -/
def Process.passes (INCLUDE_vTaskDelete : Bool) (portTICK_PERIOD_MS : Nat) :
    Nat → Process → Option (Process × Bool)
  | 0, p => some (p, false)
  | n + 1, p =>
    match Process.loopPass INCLUDE_vTaskDelete portTICK_PERIOD_MS p with
    | none => none
    | some (q, true) => some (q, true)
    | some (q, false) => Process.passes INCLUDE_vTaskDelete portTICK_PERIOD_MS n q

/-- What can happen to a Process between two observations: a call of its public
interface from outside (add, enable, disable, restart, destroy, setPeriod), the
statements of OnRun before its loop, or one pass of the loop. -/
inductive Process.Event where
  | add (enableIfNot : Bool)
  | enable
  | disable
  | restart
  | destroy
  | setPeriod (period : Nat)
  | entry
  | pass
  deriving DecidableEq, Repr

/-- The effect of one event; none when the call does not return. -/
def Process.step (INCLUDE_vTaskDelete : Bool) (portTICK_PERIOD_MS : Nat) :
    Process.Event → Process → Option Process
  | Process.Event.add b, p => some (Process.add INCLUDE_vTaskDelete b p)
  | Process.Event.enable, p => some (Process.enable INCLUDE_vTaskDelete p)
  | Process.Event.disable, p => some (Process.disable p)
  | Process.Event.restart, p => Process.restart INCLUDE_vTaskDelete p
  | Process.Event.destroy, p => some (Process.destroy p)
  | Process.Event.setPeriod n, p => some (Process.setPeriod n p)
  | Process.Event.entry, p => some (Process.OnRunEntry p)
  | Process.Event.pass, p =>
    (Process.loopPass INCLUDE_vTaskDelete portTICK_PERIOD_MS p).map Prod.fst

/-- An execution: a finite sequence of events, in order. -/
def Process.steps (INCLUDE_vTaskDelete : Bool) (portTICK_PERIOD_MS : Nat) :
    List Process.Event → Process → Option Process
  | [], p => some p
  | e :: es, p =>
    (Process.step INCLUDE_vTaskDelete portTICK_PERIOD_MS e p).bind
      (Process.steps INCLUDE_vTaskDelete portTICK_PERIOD_MS es)

/-- The events of an execution in which external callers issue only disable(),
destroy() and setPeriod(), next to the run loop itself. -/
def Process.Event.quiet : Process.Event → Bool
  | Process.Event.disable => true
  | Process.Event.destroy => true
  | Process.Event.setPeriod _ => true
  | Process.Event.entry => true
  | Process.Event.pass => true
  | _ => false

/-! ## Lifecycle of TaskCPP -/

namespace TaskCPP

variable {ε : Type}

/-- The calls named inapplicable: Start from Alive, Pause from Dead or Suspended,
Resume from Alive, Stop from Dead. -/
def Inapplicable : Op → TaskStateEnum → Bool
  | Op.Start, TaskStateEnum.Alive => true
  | Op.Pause, TaskStateEnum.Dead => true
  | Op.Pause, TaskStateEnum.Suspended => true
  | Op.Resume, TaskStateEnum.Alive => true
  | Op.Stop, TaskStateEnum.Dead => true
  | _, _ => false

theorem calls_append (V : VTable ε) (d : Bool) (xs ys : List Op) (o : TaskCPP ε) :
    calls V d (xs ++ ys) o = (calls V d xs o).bind (calls V d ys) := by
  induction xs generalizing o with
  | nil => simp [calls]
  | cons x xs ih =>
    simp only [List.cons_append, calls]
    cases call V d x o with
    | none => simp
    | some q => simpa using ih q

/-- With INCLUDE_vTaskDelete every lifecycle call returns. -/
theorem call_returns (V : VTable ε) (op : Op) (o : TaskCPP ε) :
    ∃ q, call V true op o = some q := by
  cases op <;> simp [call, Stop, stopAlive]
  cases o.TaskState <;> simp

/-- With INCLUDE_vTaskDelete every finite sequence of lifecycle calls returns. -/
theorem calls_returns (V : VTable ε) (ops : List Op) (o : TaskCPP ε) :
    ∃ q, calls V true ops o = some q := by
  induction ops generalizing o with
  | nil => exact ⟨o, rfl⟩
  | cons x xs ih =>
    obtain ⟨q, hq⟩ := call_returns V x o
    obtain ⟨r, hr⟩ := ih q
    exact ⟨r, by simp [calls, hq, hr]⟩

/-- One lifecycle call that returns has moved the state along an edge or left it
alone, and an inapplicable call has changed nothing at all. -/
theorem call_edge (V : VTable ε) (d : Bool) (op : Op) (o q : TaskCPP ε)
    (h : call V d op o = some q) :
    (q.TaskState = o.TaskState ∨ Edge o.TaskState q.TaskState = true) ∧
      (Inapplicable op o.TaskState = true → q = o) := by
  cases op <;> cases hs : o.TaskState <;> cases d <;>
    simp [call, Start, Pause, Resume, Stop, stopAlive, resumeSuspended, callHook, emit,
      xTaskCreate, hs] at h <;>
    (try split at h) <;>
    first
      | (subst h; simp [Edge, Inapplicable, hs])
      | (obtain ⟨_, h⟩ := h; subst h; simp [Edge, Inapplicable, hs])

end TaskCPP

/-- C1. In every finite sequence of Start/Pause/Resume/Stop calls on a TaskCPP that
begins Dead (with the hooks of any derived class), each call, here op after the
calls before, either leaves TaskState unchanged or moves it along one of the edges
Dead→Alive, Alive→Suspended, Suspended→Alive, Alive→Dead, Suspended→Dead, and
Start from Alive, Pause from Dead or Suspended, Resume from Alive and Stop from
Dead leave the whole object, hence the state, unchanged.  With INCLUDE_vTaskDelete
every call of the sequence returns; without it the same holds of every call that
returns. -/
theorem TaskCPP.lifecycle_edges {ε : Type} (V : VTable ε) (before : List TaskCPP.Op)
    (op : TaskCPP.Op) (o₀ : TaskCPP ε) (h₀ : o₀.TaskState = TaskStateEnum.Dead) :
    (∃ o q, TaskCPP.calls V true before o₀ = some o ∧ TaskCPP.call V true op o = some q ∧
      (q.TaskState = o.TaskState ∨ TaskCPP.Edge o.TaskState q.TaskState = true) ∧
      (TaskCPP.Inapplicable op o.TaskState = true → q = o ∧ q.TaskState = o.TaskState)) ∧
    (∀ o q, TaskCPP.calls V false before o₀ = some o → TaskCPP.call V false op o = some q →
      (q.TaskState = o.TaskState ∨ TaskCPP.Edge o.TaskState q.TaskState = true) ∧
      (TaskCPP.Inapplicable op o.TaskState = true → q = o ∧ q.TaskState = o.TaskState)) := by
  have _ := h₀
  constructor
  · obtain ⟨o, ho⟩ := TaskCPP.calls_returns V before o₀
    obtain ⟨q, hq⟩ := TaskCPP.call_returns V op o
    have hedge := TaskCPP.call_edge V true op o q hq
    exact ⟨o, q, ho, hq, hedge.1, fun hin => ⟨hedge.2 hin, by rw [hedge.2 hin]⟩⟩
  · intro o q _ hq
    have hedge := TaskCPP.call_edge V false op o q hq
    exact ⟨hedge.1, fun hin => ⟨hedge.2 hin, by rw [hedge.2 hin]⟩⟩

/-- C1 at a Process built by the first constructor in zeroed storage, for the calls
Start, Pause, Resume and then Stop. -/
theorem TaskCPP.lifecycle_edges_witness :
    (Process.ctor 0 TaskStateEnum.Dead 3 10).TaskState = TaskStateEnum.Dead ∧
    ((∃ o q,
      TaskCPP.calls Process.vtable true [TaskCPP.Op.Start, TaskCPP.Op.Pause, TaskCPP.Op.Resume]
        (Process.ctor 0 TaskStateEnum.Dead 3 10) = some o ∧
      TaskCPP.call Process.vtable true TaskCPP.Op.Stop o = some q ∧
      (q.TaskState = o.TaskState ∨ TaskCPP.Edge o.TaskState q.TaskState = true) ∧
      (TaskCPP.Inapplicable TaskCPP.Op.Stop o.TaskState = true →
        q = o ∧ q.TaskState = o.TaskState)) ∧
    (∀ o q,
      TaskCPP.calls Process.vtable false [TaskCPP.Op.Start, TaskCPP.Op.Pause, TaskCPP.Op.Resume]
        (Process.ctor 0 TaskStateEnum.Dead 3 10) = some o →
      TaskCPP.call Process.vtable false TaskCPP.Op.Stop o = some q →
      (q.TaskState = o.TaskState ∨ TaskCPP.Edge o.TaskState q.TaskState = true) ∧
      (TaskCPP.Inapplicable TaskCPP.Op.Stop o.TaskState = true →
        q = o ∧ q.TaskState = o.TaskState))) :=
  ⟨rfl, TaskCPP.lifecycle_edges Process.vtable
    [TaskCPP.Op.Start, TaskCPP.Op.Pause, TaskCPP.Op.Resume] TaskCPP.Op.Stop
    (Process.ctor 0 TaskStateEnum.Dead 3 10) rfl⟩

/-- The lifecycle walk Start, Pause, Resume, Stop of a fresh Process visits Alive,
Suspended, Alive and Dead. -/
theorem TaskCPP.lifecycle_walk :
    (TaskCPP.calls Process.vtable true [TaskCPP.Op.Start]
        (Process.ctor 0 TaskStateEnum.Dead 3 10)).map (·.TaskState) = some TaskStateEnum.Alive ∧
    (TaskCPP.calls Process.vtable true [TaskCPP.Op.Start, TaskCPP.Op.Pause]
        (Process.ctor 0 TaskStateEnum.Dead 3 10)).map (·.TaskState)
      = some TaskStateEnum.Suspended ∧
    (TaskCPP.calls Process.vtable true [TaskCPP.Op.Start, TaskCPP.Op.Pause, TaskCPP.Op.Resume]
        (Process.ctor 0 TaskStateEnum.Dead 3 10)).map (·.TaskState) = some TaskStateEnum.Alive ∧
    (TaskCPP.calls Process.vtable true
        [TaskCPP.Op.Start, TaskCPP.Op.Pause, TaskCPP.Op.Resume, TaskCPP.Op.Stop]
        (Process.ctor 0 TaskStateEnum.Dead 3 10)).map (·.TaskState) = some TaskStateEnum.Dead := by
  refine ⟨rfl, rfl, rfl, rfl⟩

/-! ## The native handle -/

/-- One direction of the handle invariant is kept by every lifecycle call, with or
without INCLUDE_vTaskDelete: when the state is not Dead the handle is not NULL. -/
theorem TaskCPP.call_live_handle {ε : Type} (V : VTable ε) (d : Bool) (op : TaskCPP.Op)
    (o q : TaskCPP ε) (h : TaskCPP.call V d op o = some q)
    (inv : o.TaskState ≠ TaskStateEnum.Dead → o.TaskHandle ≠ 0) :
    q.TaskState ≠ TaskStateEnum.Dead → q.TaskHandle ≠ 0 := by
  cases op <;> cases hs : o.TaskState <;> cases d <;>
    simp [TaskCPP.call, TaskCPP.Start, TaskCPP.Pause, TaskCPP.Resume, TaskCPP.Stop,
      TaskCPP.stopAlive, TaskCPP.resumeSuspended, TaskCPP.callHook, TaskCPP.emit,
      TaskCPP.xTaskCreate, hs] at h inv <;>
    (try split at h) <;>
    first
      | (subst h; simp_all)
      | (obtain ⟨_, h⟩ := h; subst h; simp_all)

/-- After any sequence of lifecycle calls on a freshly constructed TaskCPP whose
storage was zeroed, a state other than Dead comes with a handle other than NULL. -/
theorem TaskCPP.calls_live_handle {ε : Type} (V : VTable ε) (d : Bool)
    (ops : List TaskCPP.Op) (o q : TaskCPP ε) (h : TaskCPP.calls V d ops o = some q)
    (inv : o.TaskState ≠ TaskStateEnum.Dead → o.TaskHandle ≠ 0) :
    q.TaskState ≠ TaskStateEnum.Dead → q.TaskHandle ≠ 0 := by
  induction ops generalizing o with
  | nil =>
    simp only [TaskCPP.calls, Option.some.injEq] at h
    subst h
    exact inv
  | cons x xs ih =>
    simp only [TaskCPP.calls] at h
    cases hx : TaskCPP.call V d x o with
    | none => simp [hx] at h
    | some r =>
      simp only [hx, Option.some_bind] at h
      exact ih r h (TaskCPP.call_live_handle V d x o r hx inv)

/-- Stop with INCLUDE_vTaskDelete never assigns TaskHandle: the handle of the
deleted native task stays in the member. -/
theorem TaskCPP.Stop_keeps_handle {ε : Type} (V : VTable ε) (o q : TaskCPP ε)
    (h : TaskCPP.Stop V true o = some q) : q.TaskHandle = o.TaskHandle := by
  cases hs : o.TaskState <;>
    simp [TaskCPP.Stop, TaskCPP.stopAlive, TaskCPP.callHook, TaskCPP.emit, hs] at h <;>
    subst h <;> rfl

/-- C2, evaluated where it fails. A TaskCPP constructed in zeroed storage (state
Dead, handle NULL), then Start and Stop with INCLUDE_vTaskDelete: both calls return,
the state is Dead again and the member TaskHandle still holds the handle 1 of the
deleted native task, so "handle non-null iff state not Dead" is false there. -/
theorem TaskCPP.handle_stale_after_Stop :
    ∃ q, TaskCPP.calls TaskCPP.vtable true [TaskCPP.Op.Start, TaskCPP.Op.Stop]
        (TaskCPP.ctor 0 TaskStateEnum.Dead () 0) = some q ∧
      q.TaskState = TaskStateEnum.Dead ∧ q.TaskHandle = 1 ∧
      ¬ (q.TaskHandle ≠ 0 ↔ q.TaskState ≠ TaskStateEnum.Dead) :=
  ⟨_, rfl, rfl, rfl, by decide⟩

/-! ## Process: destroy, add, enable, disable, restart -/

/-- C3. For a Process that is Alive with pending action Run, destroy() followed by
the rest of OnRun from the next pass of its loop on (with any fuel of at least
one pass) and the Stop() of TaskCPP::Run: the next pass is the one that returns,
Run returns, the calls made are OnDestroy, cleanup, vTaskDelete, so cleanup() has
been invoked exactly once more, and isNotDestroyed() is false afterwards. -/
theorem Process.destroy_cleanup_once (portTICK_PERIOD_MS fuel : Nat) (p : Process)
    (hAlive : p.TaskState = TaskStateEnum.Alive)
    (hRun : p.derived.PendingAction = RequestAction.Run) :
    ∃ q r,
      Process.loopPass true portTICK_PERIOD_MS (Process.destroy p) = some (q, true) ∧
      TaskCPP.Run Process.vtable true (Process.loop true portTICK_PERIOD_MS (fuel + 1))
        (Process.destroy p) = some r ∧
      r.trace = p.trace ++ [Call.OnDestroy, Call.cleanup, Call.vTaskDelete p.TaskHandle] ∧
      cleanupCount r.trace = cleanupCount p.trace + 1 ∧
      Process.isNotDestroyed r = false := by
  have _ := hRun
  let q : Process := TaskCPP.emit (Call.vTaskDelete p.TaskHandle)
    (TaskCPP.callHook Call.OnDestroy Process.vtable.OnDestroy
      { Process.destroy p with TaskState := TaskStateEnum.Dead })
  have hpass : Process.loopPass true portTICK_PERIOD_MS (Process.destroy p)
      = some (q, true) := by
    simp [q, Process.loopPass, Process.destroy, Process.setPendingAction, TaskCPP.Stop,
      TaskCPP.stopAlive, TaskCPP.callHook, TaskCPP.emit, hAlive]
  have hq : q.TaskState = TaskStateEnum.Dead := rfl
  refine ⟨q, q, hpass, ?_, ?_, ?_, ?_⟩
  · simp [TaskCPP.Run, Process.loop, hpass, TaskCPP.Stop, hq]
  · simp [q, TaskCPP.emit, TaskCPP.callHook, Process.vtable, Process.OnDestroy,
      Process.destroy, Process.setPendingAction]
  · simp [q, cleanupCount, TaskCPP.emit, TaskCPP.callHook, Process.vtable, Process.OnDestroy,
      Process.destroy, Process.setPendingAction, List.count_cons]
  · simp [Process.isNotDestroyed, TaskCPP.IsAlive, hq]

/-- The sample running Process is reached by the code: construction, add(true),
the entry of OnRun and one pass of the loop. -/
theorem Process.sampleRunning_reached :
    Process.loopPass true 1
      (Process.OnRunEntry (Process.add true true (Process.ctor 0 TaskStateEnum.Dead 3 10)))
      = some (Process.sampleRunning, false) := rfl

/-- C3 at the sample running Process, with tick period 1 and fuel for three passes. -/
theorem Process.destroy_cleanup_once_witness :
    Process.sampleRunning.TaskState = TaskStateEnum.Alive ∧
    Process.sampleRunning.derived.PendingAction = RequestAction.Run ∧
    ∃ q r,
      Process.loopPass true 1 (Process.destroy Process.sampleRunning) = some (q, true) ∧
      TaskCPP.Run Process.vtable true (Process.loop true 1 (2 + 1))
        (Process.destroy Process.sampleRunning) = some r ∧
      r.trace = Process.sampleRunning.trace ++
        [Call.OnDestroy, Call.cleanup, Call.vTaskDelete Process.sampleRunning.TaskHandle] ∧
      cleanupCount r.trace = cleanupCount Process.sampleRunning.trace + 1 ∧
      Process.isNotDestroyed r = false :=
  ⟨rfl, rfl, Process.destroy_cleanup_once 1 2 Process.sampleRunning rfl rfl⟩

/-- C4. From every Process state (Dead, Alive or Suspended, any pending action,
with or without INCLUDE_vTaskDelete), add(true) leaves the task Alive with Enable
armed and isEnabled() true, and add(false) leaves the task Suspended with Disable
armed, isEnabled() false and isNotDestroyed() true. -/
theorem Process.add_spec (INCLUDE_vTaskDelete : Bool) (p : Process) :
    ((Process.add INCLUDE_vTaskDelete true p).TaskState = TaskStateEnum.Alive ∧
      (Process.add INCLUDE_vTaskDelete true p).derived.PendingAction = RequestAction.Enable ∧
      Process.isEnabled (Process.add INCLUDE_vTaskDelete true p) = true) ∧
    ((Process.add INCLUDE_vTaskDelete false p).TaskState = TaskStateEnum.Suspended ∧
      (Process.add INCLUDE_vTaskDelete false p).derived.PendingAction = RequestAction.Disable ∧
      Process.isEnabled (Process.add INCLUDE_vTaskDelete false p) = false ∧
      Process.isNotDestroyed (Process.add INCLUDE_vTaskDelete false p) = true) := by
  cases hs : p.TaskState <;> cases INCLUDE_vTaskDelete <;>
    simp [Process.add, Process.isEnabled, Process.isNotDestroyed, TaskCPP.IsAlive,
      TaskCPP.Start, TaskCPP.Pause, TaskCPP.callHook, TaskCPP.emit, TaskCPP.xTaskCreate,
      Process.setPendingAction, Process.vtable, TaskCPP.vtable, Process.OnResume, hs]
  split <;> simp

/-- C5. enable() on a Process whose task is Suspended or Dead leaves the task Alive
with pending action Enable, so isEnabled() is true; enable() on a Process whose
task is Alive changes nothing, neither the task state nor the pending action, so
after disable() on an Alive Process enable() leaves the armed Disable in place. -/
theorem Process.enable_spec (INCLUDE_vTaskDelete : Bool) (p : Process) :
    (p.TaskState = TaskStateEnum.Suspended ∨ p.TaskState = TaskStateEnum.Dead →
      (Process.enable INCLUDE_vTaskDelete p).TaskState = TaskStateEnum.Alive ∧
      (Process.enable INCLUDE_vTaskDelete p).derived.PendingAction = RequestAction.Enable ∧
      Process.isEnabled (Process.enable INCLUDE_vTaskDelete p) = true) ∧
    (p.TaskState = TaskStateEnum.Alive →
      Process.enable INCLUDE_vTaskDelete p = p ∧
      (Process.enable INCLUDE_vTaskDelete p).TaskState = p.TaskState ∧
      (Process.enable INCLUDE_vTaskDelete p).derived.PendingAction = p.derived.PendingAction ∧
      Process.enable INCLUDE_vTaskDelete (Process.disable p) = Process.disable p ∧
      (Process.enable INCLUDE_vTaskDelete (Process.disable p)).derived.PendingAction
        = RequestAction.Disable ∧
      Process.isEnabled (Process.enable INCLUDE_vTaskDelete (Process.disable p)) = false) := by
  constructor
  · intro hs
    rcases hs with hs | hs <;> cases INCLUDE_vTaskDelete <;>
      simp [Process.enable, Process.isEnabled, TaskCPP.IsAlive, TaskCPP.Resume,
        TaskCPP.resumeSuspended, TaskCPP.Start, TaskCPP.callHook, TaskCPP.emit,
        TaskCPP.xTaskCreate, Process.vtable, TaskCPP.vtable, Process.OnResume, hs]
  · intro hs
    have hd : (Process.disable p).TaskState = TaskStateEnum.Alive := hs
    have h1 : Process.enable INCLUDE_vTaskDelete p = p := by
      simp [Process.enable, TaskCPP.Resume, hs]
    have h2 : Process.enable INCLUDE_vTaskDelete (Process.disable p) = Process.disable p := by
      simp [Process.enable, TaskCPP.Resume, hd]
    refine ⟨h1, by rw [h1], by rw [h1], h2, by rw [h2]; rfl, ?_⟩
    rw [h2]
    simp [Process.isEnabled, Process.disable, Process.setPendingAction]

/-- C6. disable() and destroy() only overwrite the mailbox: from every Process
state and every previous pending action, disable() sets the pending action to
Disable and destroy() sets it to None, and neither changes the task state, the
handle, the name, the period, the priority of Process or of the task, nor records
any hook or native call. -/
theorem Process.disable_destroy_frame (p : Process) :
    ((Process.disable p).derived.PendingAction = RequestAction.Disable ∧
      (Process.disable p).TaskState = p.TaskState ∧
      (Process.disable p).TaskHandle = p.TaskHandle ∧
      (Process.disable p).TaskName = p.TaskName ∧
      Process.getPeriod (Process.disable p) = Process.getPeriod p ∧
      Process.getPriority (Process.disable p) = Process.getPriority p ∧
      TaskCPP.GetPriority (Process.disable p) = TaskCPP.GetPriority p ∧
      (Process.disable p).trace = p.trace ∧
      (Process.disable p).created = p.created) ∧
    ((Process.destroy p).derived.PendingAction = RequestAction.None ∧
      (Process.destroy p).TaskState = p.TaskState ∧
      (Process.destroy p).TaskHandle = p.TaskHandle ∧
      (Process.destroy p).TaskName = p.TaskName ∧
      Process.getPeriod (Process.destroy p) = Process.getPeriod p ∧
      Process.getPriority (Process.destroy p) = Process.getPriority p ∧
      TaskCPP.GetPriority (Process.destroy p) = TaskCPP.GetPriority p ∧
      (Process.destroy p).trace = p.trace ∧
      (Process.destroy p).created = p.created) := by
  refine ⟨⟨rfl, rfl, rfl, rfl, rfl, rfl, rfl, rfl, rfl⟩, ⟨rfl, rfl, rfl, rfl, rfl, rfl, rfl, rfl, rfl⟩⟩

/-- C7. With INCLUDE_vTaskDelete, from every Process state restart() returns and
leaves the task Alive with Enable armed (isEnabled() true); getPeriod(),
getPriority() and the priority of the task are unchanged; the calls it records
hold exactly one native task creation, and one native task deletion when the task
was not Dead beforehand and none when it was Dead; the deletion, of the handle held
beforehand, comes right after cleanup(). -/
theorem Process.restart_spec (p : Process) :
    ∃ q new,
      Process.restart true p = some q ∧
      q.TaskState = TaskStateEnum.Alive ∧
      q.derived.PendingAction = RequestAction.Enable ∧
      Process.isEnabled q = true ∧
      Process.getPeriod q = Process.getPeriod p ∧
      Process.getPriority q = Process.getPriority p ∧
      TaskCPP.GetPriority q = TaskCPP.GetPriority p ∧
      q.trace = p.trace ++ new ∧
      new.countP Call.isCreate = 1 ∧
      new.countP Call.isDelete = (if p.TaskState = TaskStateEnum.Dead then 0 else 1) ∧
      (p.TaskState ≠ TaskStateEnum.Dead →
        ∃ before after,
          new = before ++ Call.cleanup :: Call.vTaskDelete p.TaskHandle :: after) := by
  cases hs : p.TaskState
  · refine ⟨TaskCPP.Start Process.vtable true (Process.setPendingAction RequestAction.Enable p),
      [Call.OnStart, Call.xTaskCreate p.TaskName p.Priority], ?_, ?_⟩
    · simp [Process.restart, TaskCPP.Stop, hs]
    · simp [Process.isEnabled, TaskCPP.IsAlive, TaskCPP.Start, TaskCPP.callHook,
        TaskCPP.xTaskCreate, Process.setPendingAction, Process.vtable, TaskCPP.vtable,
        Process.getPeriod, Process.getPriority, TaskCPP.GetPriority, Call.isCreate,
        Call.isDelete, hs]
  · refine ⟨TaskCPP.Start Process.vtable true (Process.setPendingAction RequestAction.Enable
        (TaskCPP.emit (Call.vTaskDelete p.TaskHandle)
          (TaskCPP.callHook Call.OnDestroy Process.vtable.OnDestroy
            { p with TaskState := TaskStateEnum.Dead }))),
      [Call.OnDestroy] ++
        (if p.derived.PendingAction = RequestAction.Disable then [Call.onDisable] else []) ++
        [Call.cleanup, Call.vTaskDelete p.TaskHandle, Call.OnStart,
          Call.xTaskCreate p.TaskName p.Priority], ?_, ?_⟩
    · simp [Process.restart, TaskCPP.Stop, TaskCPP.stopAlive, TaskCPP.callHook, TaskCPP.emit, hs]
    · simp [Process.isEnabled, TaskCPP.IsAlive, TaskCPP.Start, TaskCPP.callHook,
        TaskCPP.xTaskCreate, TaskCPP.emit, Process.setPendingAction, Process.vtable,
        TaskCPP.vtable, Process.OnDestroy, Process.getPeriod, Process.getPriority,
        TaskCPP.GetPriority, Call.isCreate, Call.isDelete, hs]
      exact ⟨Call.OnDestroy ::
        (if p.derived.PendingAction = RequestAction.Disable then [Call.onDisable] else []),
        [Call.OnStart, Call.xTaskCreate p.TaskName p.Priority], by simp⟩
  · refine ⟨TaskCPP.Start Process.vtable true (Process.setPendingAction RequestAction.Enable
        (TaskCPP.emit (Call.vTaskDelete p.TaskHandle)
          (TaskCPP.callHook Call.OnDestroy Process.vtable.OnDestroy
            { TaskCPP.emit (Call.vTaskResume p.TaskHandle) p with
              TaskState := TaskStateEnum.Dead }))),
      [Call.vTaskResume p.TaskHandle, Call.OnDestroy] ++
        (if p.derived.PendingAction = RequestAction.Disable then [Call.onDisable] else []) ++
        [Call.cleanup, Call.vTaskDelete p.TaskHandle, Call.OnStart,
          Call.xTaskCreate p.TaskName p.Priority], ?_, ?_⟩
    · simp [Process.restart, TaskCPP.Stop, TaskCPP.stopAlive, TaskCPP.callHook, TaskCPP.emit, hs]
    · simp [Process.isEnabled, TaskCPP.IsAlive, TaskCPP.Start, TaskCPP.callHook,
        TaskCPP.xTaskCreate, TaskCPP.emit, Process.setPendingAction, Process.vtable,
        TaskCPP.vtable, Process.OnDestroy, Process.getPeriod, Process.getPriority,
        TaskCPP.GetPriority, Call.isCreate, Call.isDelete, hs]
      exact ⟨Call.vTaskResume p.TaskHandle :: Call.OnDestroy ::
        (if p.derived.PendingAction = RequestAction.Disable then [Call.onDisable] else []),
        [Call.OnStart, Call.xTaskCreate p.TaskName p.Priority], by simp⟩

/-! ## Process: construction and queries -/

/-- The first constructor of Process, for every band and period: getPriority()
returns the band, and the priority of the task is tskIDLE_PRIORITY whatever the
band, because TaskCPP(UBaseType_t) does not assign Priority. -/
theorem Process.ctor_priorities (tskIDLE_PRIORITY : Nat) (uninit : TaskStateEnum)
    (b : ProcPriority) (period : Nat) :
    Process.getPriority (Process.ctor tskIDLE_PRIORITY uninit b period) = b ∧
    TaskCPP.GetPriority (Process.ctor tskIDLE_PRIORITY uninit b period) = tskIDLE_PRIORITY :=
  ⟨rfl, rfl⟩

/-- C8, evaluated where it fails. With configMAX_PRIORITIES = 5 and
tskIDLE_PRIORITY = 0, Process(HIGHEST_PRIORITY, 10): the band has the numeric value
4 and getPriority() returns it, but GetPriority() of the task is 0 and Start()
passes priority 0 to xTaskCreate. -/
theorem Process.ctor_drops_band :
    HIGHEST_PRIORITY 5 = 4 ∧ toUBaseType (HIGHEST_PRIORITY 5) = 4 ∧
    Process.getPriority (Process.ctor 0 TaskStateEnum.Dead (HIGHEST_PRIORITY 5) 10) = 4 ∧
    TaskCPP.GetPriority (Process.ctor 0 TaskStateEnum.Dead (HIGHEST_PRIORITY 5) 10) = 0 ∧
    (TaskCPP.Start Process.vtable true
      (Process.ctor 0 TaskStateEnum.Dead (HIGHEST_PRIORITY 5) 10)).trace
      = [Call.OnStart, Call.xTaskCreate "X" 0] := by
  refine ⟨by decide, by decide, by decide, rfl, rfl⟩

/-- C9. For every Process state, isEnabled() is true exactly when the task state is
Alive or Suspended and the pending action is neither Disable nor None, and
isNotDestroyed() is true exactly when the task state is Alive or Suspended. -/
theorem Process.isEnabled_iff (p : Process) :
    (Process.isEnabled p = true ↔
      (p.TaskState = TaskStateEnum.Alive ∨ p.TaskState = TaskStateEnum.Suspended) ∧
        p.derived.PendingAction ≠ RequestAction.Disable ∧
        p.derived.PendingAction ≠ RequestAction.None) ∧
    (Process.isNotDestroyed p = true ↔
      (p.TaskState = TaskStateEnum.Alive ∨ p.TaskState = TaskStateEnum.Suspended)) := by
  simp [Process.isEnabled, Process.isNotDestroyed, TaskCPP.IsAlive]

/-- Construction in zeroed storage, by either constructor: the state is Dead,
isNotDestroyed() and IsSuspended() are false, the handle is NULL, the pending
action is Disable, isEnabled() is false and getPeriod() returns the period given. -/
theorem Process.ctor_zeroed (tskIDLE_PRIORITY : Nat) (b : ProcPriority) (taskName : String)
    (priority period : Nat) :
    ((Process.ctor tskIDLE_PRIORITY TaskStateEnum.Dead b period).TaskState = TaskStateEnum.Dead ∧
      Process.isNotDestroyed (Process.ctor tskIDLE_PRIORITY TaskStateEnum.Dead b period) = false ∧
      TaskCPP.IsSuspended (Process.ctor tskIDLE_PRIORITY TaskStateEnum.Dead b period) = false ∧
      (Process.ctor tskIDLE_PRIORITY TaskStateEnum.Dead b period).TaskHandle = 0 ∧
      (Process.ctor tskIDLE_PRIORITY TaskStateEnum.Dead b period).derived.PendingAction
        = RequestAction.Disable ∧
      Process.isEnabled (Process.ctor tskIDLE_PRIORITY TaskStateEnum.Dead b period) = false ∧
      Process.getPeriod (Process.ctor tskIDLE_PRIORITY TaskStateEnum.Dead b period) = period) ∧
    ((Process.ctorNamed TaskStateEnum.Dead taskName priority period).TaskState
        = TaskStateEnum.Dead ∧
      Process.isNotDestroyed (Process.ctorNamed TaskStateEnum.Dead taskName priority period)
        = false ∧
      TaskCPP.IsSuspended (Process.ctorNamed TaskStateEnum.Dead taskName priority period)
        = false ∧
      (Process.ctorNamed TaskStateEnum.Dead taskName priority period).TaskHandle = 0 ∧
      (Process.ctorNamed TaskStateEnum.Dead taskName priority period).derived.PendingAction
        = RequestAction.Disable ∧
      Process.isEnabled (Process.ctorNamed TaskStateEnum.Dead taskName priority period) = false ∧
      Process.getPeriod (Process.ctorNamed TaskStateEnum.Dead taskName priority period)
        = period) :=
  ⟨⟨rfl, rfl, rfl, rfl, rfl, rfl, rfl⟩, ⟨rfl, rfl, rfl, rfl, rfl, rfl, rfl⟩⟩

/-- Construction in any storage, by either constructor: the state is what the
storage held, since no constructor assigns TaskState. -/
theorem Process.ctor_state (tskIDLE_PRIORITY : Nat) (uninit : TaskStateEnum)
    (b : ProcPriority) (taskName : String) (priority period : Nat) :
    (Process.ctor tskIDLE_PRIORITY uninit b period).TaskState = uninit ∧
    (Process.ctorNamed uninit taskName priority period).TaskState = uninit :=
  ⟨rfl, rfl⟩

/-- C10, evaluated where it fails. Process(3, 10) constructed in storage whose
TaskState cell holds 1 (Alive) is Alive and isNotDestroyed() is true; the named
constructor in storage whose cell holds 2 (Suspended) gives a Process for which
IsSuspended() and isNotDestroyed() are true.  Pause() on the first records a
vTaskSuspend of the NULL handle. -/
theorem Process.ctor_state_from_storage :
    (Process.ctor 0 TaskStateEnum.Alive 3 10).TaskState = TaskStateEnum.Alive ∧
    Process.isNotDestroyed (Process.ctor 0 TaskStateEnum.Alive 3 10) = true ∧
    (Process.ctor 0 TaskStateEnum.Alive 3 10).TaskHandle = 0 ∧
    TaskCPP.IsSuspended (Process.ctorNamed TaskStateEnum.Suspended "T" 3 10) = true ∧
    Process.isNotDestroyed (Process.ctorNamed TaskStateEnum.Suspended "T" 3 10) = true ∧
    (TaskCPP.Pause Process.vtable (Process.ctor 0 TaskStateEnum.Alive 3 10)).trace
      = [Call.OnSuspend, Call.vTaskSuspend 0] :=
  ⟨rfl, rfl, rfl, rfl, rfl, rfl⟩

/-! ## Lifecycle of TaskCPP: repeated calls, hooks, Resume -/

/-- A lifecycle call that has returned, repeated at once, returns and changes
nothing. -/
theorem TaskCPP.call_twice {ε : Type} (V : VTable ε) (d : Bool) (op : TaskCPP.Op)
    (o q : TaskCPP ε) (h : TaskCPP.call V d op o = some q) :
    TaskCPP.call V d op q = some q := by
  cases op <;> cases hs : o.TaskState <;> cases d <;>
    simp [TaskCPP.call, TaskCPP.Start, TaskCPP.Pause, TaskCPP.Resume, TaskCPP.Stop,
      TaskCPP.stopAlive, TaskCPP.resumeSuspended, TaskCPP.callHook, TaskCPP.emit,
      TaskCPP.xTaskCreate, hs] at h <;>
    (try split at h) <;>
    first
      | (subst h
         simp [TaskCPP.call, TaskCPP.Start, TaskCPP.Pause, TaskCPP.Resume, TaskCPP.Stop, hs])
      | (obtain ⟨_, h⟩ := h
         subst h
         simp [TaskCPP.call, TaskCPP.Start, TaskCPP.Pause, TaskCPP.Resume, TaskCPP.Stop, hs])

/-- C11. Each of Start, Pause, Resume and Stop is idempotent from every state, with
the hooks of any derived class: with INCLUDE_vTaskDelete the call returns, and
called again at once it returns, leaves the same task state and adds no hook call
and no native call to the trace (it leaves the whole object as it is); without
INCLUDE_vTaskDelete the same holds whenever the first call returns. -/
theorem TaskCPP.lifecycle_idempotent {ε : Type} (V : VTable ε) (op : TaskCPP.Op)
    (o : TaskCPP ε) :
    (∃ q r, TaskCPP.call V true op o = some q ∧ TaskCPP.call V true op q = some r ∧
      TaskCPP.calls V true [op, op] o = some r ∧
      r.TaskState = q.TaskState ∧ r.trace = q.trace ∧ r = q) ∧
    (∀ q, TaskCPP.call V false op o = some q →
      ∃ r, TaskCPP.call V false op q = some r ∧
        r.TaskState = q.TaskState ∧ r.trace = q.trace ∧ r = q) := by
  constructor
  · obtain ⟨q, hq⟩ := TaskCPP.call_returns V op o
    have h2 := TaskCPP.call_twice V true op o q hq
    exact ⟨q, q, hq, h2, by simp [TaskCPP.calls, hq, h2], rfl, rfl, rfl⟩
  · intro q hq
    exact ⟨q, TaskCPP.call_twice V false op o q hq, rfl, rfl, rfl⟩

/-- A list of added calls of the shape pre, hook, mid, native, where neither hook
nor native occurs in pre or mid, has the hook once, the native call once and the
hook first. -/
theorem hookOnceBeforeNative_intro (hook native : Call) (pre mid : List Call)
    (hne : hook ≠ native) (h1 : hook ∉ pre) (h2 : hook ∉ mid) (h3 : native ∉ pre)
    (h4 : native ∉ mid) :
    hookOnceBeforeNative hook native (pre ++ hook :: mid ++ [native]) = true := by
  have hne2 : native ≠ hook := fun h => hne h.symm
  have c1 : (pre ++ hook :: mid ++ [native]).count hook = 1 := by
    simp [List.count_append, List.count_cons, List.count_eq_zero_of_not_mem h1,
      List.count_eq_zero_of_not_mem h2, hne2]
  have c2 : (pre ++ hook :: mid ++ [native]).count native = 1 := by
    simp [List.count_append, List.count_cons, List.count_eq_zero_of_not_mem h3,
      List.count_eq_zero_of_not_mem h4, hne]
  have i1 : (pre ++ hook :: mid ++ [native]).indexOf hook = pre.length := by
    rw [List.append_assoc, List.indexOf_append_of_not_mem h1]
    simp
  have i2 : (pre ++ hook :: mid ++ [native]).indexOf native = pre.length + (mid.length + 1) := by
    rw [List.append_assoc, List.indexOf_append_of_not_mem h3, List.cons_append,
      List.indexOf_cons_ne _ hne, List.indexOf_append_of_not_mem h4]
    simp
  unfold hookOnceBeforeNative
  rw [c1, c2, i1, i2]
  simp

/-- A call that is not a hook of Process is not made by the hook bodies of a table
whose bodies call hooks of Process only. -/
theorem VTable.CallsProcessHooksOnly.not_mem {ε : Type} {V : VTable ε}
    (hV : V.CallsProcessHooksOnly) (e : ε) (c : Call) (hc : c.isProcessHook = false) :
    c ∉ (V.OnStart e).2 ∧ c ∉ (V.OnResume e).2 ∧ c ∉ (V.OnDestroy e).2 ∧
      c ∉ (V.OnSuspend e).2 := by
  refine ⟨fun h => ?_, fun h => ?_, fun h => ?_, fun h => ?_⟩
  · have := hV e c (Or.inl h); simp [hc] at this
  · have := hV e c (Or.inr (Or.inl h)); simp [hc] at this
  · have := hV e c (Or.inr (Or.inr (Or.inl h))); simp [hc] at this
  · have := hV e c (Or.inr (Or.inr (Or.inr h))); simp [hc] at this

/-- The hook bodies of TaskCPP call nothing. -/
theorem TaskCPP.base_hooks_call_nothing {ε : Type} :
    (TaskCPP.vtable : VTable ε).CallsProcessHooksOnly := by
  intro e c h
  simp [TaskCPP.vtable] at h

/-- The hook bodies of Process call onDisable and cleanup only. -/
theorem Process.hooks_call_process_hooks : Process.vtable.CallsProcessHooksOnly := by
  intro e c h
  simp only [Process.vtable, TaskCPP.vtable, Process.OnResume, Process.OnDestroy] at h
  rcases h with h | h | h | h
  · simp at h
  · simp at h
  · by_cases hd : e.PendingAction = RequestAction.Disable
    · simp [hd] at h
      rcases h with h | h <;> subst h <;> rfl
    · simp [hd] at h
      subst h
      rfl
  · simp at h

/-- C12. Every effective lifecycle transition invokes its hook exactly once and
before the corresponding native call, for TaskCPP itself, for Process and for the
hooks of any derived class whose bodies call hooks of Process only: among the
calls added to the trace, Start from Dead (with INCLUDE_vTaskDelete) has OnStart
once and before the one xTaskCreate, Start from Suspended has OnResume once and
before the one vTaskResume, Pause from Alive has OnSuspend once and before the one
vTaskSuspend, and Stop from Alive or Suspended (with INCLUDE_vTaskDelete) returns
and has OnDestroy once and before the one vTaskDelete. -/
theorem TaskCPP.hook_before_native {ε : Type} (V : VTable ε)
    (hV : V.CallsProcessHooksOnly) (d : Bool) (o : TaskCPP ε) :
    (o.TaskState = TaskStateEnum.Dead →
      ∃ added, (TaskCPP.Start V true o).trace = o.trace ++ added ∧
        (TaskCPP.Start V true o).TaskState = TaskStateEnum.Alive ∧
        hookOnceBeforeNative Call.OnStart (Call.xTaskCreate o.TaskName o.Priority) added
          = true) ∧
    (o.TaskState = TaskStateEnum.Suspended →
      ∃ added, (TaskCPP.Start V d o).trace = o.trace ++ added ∧
        (TaskCPP.Start V d o).TaskState = TaskStateEnum.Alive ∧
        hookOnceBeforeNative Call.OnResume (Call.vTaskResume o.TaskHandle) added = true) ∧
    (o.TaskState = TaskStateEnum.Alive →
      ∃ added, (TaskCPP.Pause V o).trace = o.trace ++ added ∧
        (TaskCPP.Pause V o).TaskState = TaskStateEnum.Suspended ∧
        hookOnceBeforeNative Call.OnSuspend (Call.vTaskSuspend o.TaskHandle) added = true) ∧
    (o.TaskState = TaskStateEnum.Alive ∨ o.TaskState = TaskStateEnum.Suspended →
      ∃ q added, TaskCPP.Stop V true o = some q ∧ q.trace = o.trace ++ added ∧
        q.TaskState = TaskStateEnum.Dead ∧
        hookOnceBeforeNative Call.OnDestroy (Call.vTaskDelete o.TaskHandle) added = true) := by
  refine ⟨fun hs => ?_, fun hs => ?_, fun hs => ?_, fun hs => ?_⟩
  · have hh := hV.not_mem o.derived Call.OnStart rfl
    have hn := hV.not_mem o.derived (Call.xTaskCreate o.TaskName o.Priority) rfl
    refine ⟨[] ++ Call.OnStart :: (V.OnStart o.derived).2 ++
      [Call.xTaskCreate o.TaskName o.Priority], ?_, ?_,
      hookOnceBeforeNative_intro _ _ _ _ (by simp) (by simp) hh.1 (by simp) hn.1⟩
    · simp [TaskCPP.Start, TaskCPP.callHook, TaskCPP.xTaskCreate, hs]
    · simp [TaskCPP.Start, TaskCPP.callHook, TaskCPP.xTaskCreate, hs]
  · have hh := hV.not_mem o.derived Call.OnResume rfl
    have hn := hV.not_mem o.derived (Call.vTaskResume o.TaskHandle) rfl
    refine ⟨[] ++ Call.OnResume :: (V.OnResume o.derived).2 ++
      [Call.vTaskResume o.TaskHandle], ?_, ?_,
      hookOnceBeforeNative_intro _ _ _ _ (by simp) (by simp) hh.2.1 (by simp) hn.2.1⟩
    · simp [TaskCPP.Start, TaskCPP.callHook, TaskCPP.emit, hs]
    · simp [TaskCPP.Start, TaskCPP.callHook, TaskCPP.emit, hs]
  · have hh := hV.not_mem o.derived Call.OnSuspend rfl
    have hn := hV.not_mem o.derived (Call.vTaskSuspend o.TaskHandle) rfl
    refine ⟨[] ++ Call.OnSuspend :: (V.OnSuspend o.derived).2 ++
      [Call.vTaskSuspend o.TaskHandle], ?_, ?_,
      hookOnceBeforeNative_intro _ _ _ _ (by simp) (by simp) hh.2.2.2 (by simp) hn.2.2.2⟩
    · simp [TaskCPP.Pause, TaskCPP.callHook, TaskCPP.emit, hs]
    · simp [TaskCPP.Pause, TaskCPP.callHook, TaskCPP.emit, hs]
  · have hh := hV.not_mem o.derived Call.OnDestroy rfl
    have hn := hV.not_mem o.derived (Call.vTaskDelete o.TaskHandle) rfl
    rcases hs with hs | hs
    · refine ⟨TaskCPP.emit (Call.vTaskDelete o.TaskHandle)
          (TaskCPP.callHook Call.OnDestroy V.OnDestroy
            { o with TaskState := TaskStateEnum.Dead }),
        [] ++ Call.OnDestroy :: (V.OnDestroy o.derived).2 ++
        [Call.vTaskDelete o.TaskHandle], ?_, ?_, ?_,
        hookOnceBeforeNative_intro _ _ _ _ (by simp) (by simp) hh.2.2.1 (by simp) hn.2.2.1⟩
      · simp [TaskCPP.Stop, TaskCPP.stopAlive, TaskCPP.callHook, TaskCPP.emit, hs]
      · simp [TaskCPP.callHook, TaskCPP.emit]
      · simp [TaskCPP.callHook, TaskCPP.emit]
    · refine ⟨TaskCPP.emit (Call.vTaskDelete o.TaskHandle)
          (TaskCPP.callHook Call.OnDestroy V.OnDestroy
            { TaskCPP.emit (Call.vTaskResume o.TaskHandle) o with
              TaskState := TaskStateEnum.Dead }),
        [Call.vTaskResume o.TaskHandle] ++ Call.OnDestroy :: (V.OnDestroy o.derived).2 ++
        [Call.vTaskDelete o.TaskHandle], ?_, ?_, ?_,
        hookOnceBeforeNative_intro _ _ _ _ (by simp) (by simp) hh.2.2.1 (by simp) hn.2.2.1⟩
      · simp [TaskCPP.Stop, TaskCPP.stopAlive, TaskCPP.callHook, TaskCPP.emit, hs]
      · simp [TaskCPP.callHook, TaskCPP.emit]
      · simp [TaskCPP.callHook, TaskCPP.emit]

/-- C12 at the hooks of Process and the sample running Process. -/
theorem TaskCPP.hook_before_native_witness :
    Process.vtable.CallsProcessHooksOnly ∧
    ((Process.sampleRunning.TaskState = TaskStateEnum.Dead →
      ∃ added, (TaskCPP.Start Process.vtable true Process.sampleRunning).trace
          = Process.sampleRunning.trace ++ added ∧
        (TaskCPP.Start Process.vtable true Process.sampleRunning).TaskState
          = TaskStateEnum.Alive ∧
        hookOnceBeforeNative Call.OnStart
          (Call.xTaskCreate Process.sampleRunning.TaskName Process.sampleRunning.Priority)
          added = true) ∧
    (Process.sampleRunning.TaskState = TaskStateEnum.Suspended →
      ∃ added, (TaskCPP.Start Process.vtable true Process.sampleRunning).trace
          = Process.sampleRunning.trace ++ added ∧
        (TaskCPP.Start Process.vtable true Process.sampleRunning).TaskState
          = TaskStateEnum.Alive ∧
        hookOnceBeforeNative Call.OnResume
          (Call.vTaskResume Process.sampleRunning.TaskHandle) added = true) ∧
    (Process.sampleRunning.TaskState = TaskStateEnum.Alive →
      ∃ added, (TaskCPP.Pause Process.vtable Process.sampleRunning).trace
          = Process.sampleRunning.trace ++ added ∧
        (TaskCPP.Pause Process.vtable Process.sampleRunning).TaskState
          = TaskStateEnum.Suspended ∧
        hookOnceBeforeNative Call.OnSuspend
          (Call.vTaskSuspend Process.sampleRunning.TaskHandle) added = true) ∧
    (Process.sampleRunning.TaskState = TaskStateEnum.Alive ∨
        Process.sampleRunning.TaskState = TaskStateEnum.Suspended →
      ∃ q added, TaskCPP.Stop Process.vtable true Process.sampleRunning = some q ∧
        q.trace = Process.sampleRunning.trace ++ added ∧
        q.TaskState = TaskStateEnum.Dead ∧
        hookOnceBeforeNative Call.OnDestroy
          (Call.vTaskDelete Process.sampleRunning.TaskHandle) added = true)) :=
  ⟨Process.hooks_call_process_hooks,
    TaskCPP.hook_before_native Process.vtable Process.hooks_call_process_hooks true
      Process.sampleRunning⟩

/-- The four effective transitions on concrete Process objects: the calls each one
adds to the trace. -/
theorem TaskCPP.hook_before_native_runs :
    (TaskCPP.Start Process.vtable true (Process.ctor 0 TaskStateEnum.Dead 3 10)).trace
      = [Call.OnStart, Call.xTaskCreate "X" 0] ∧
    (TaskCPP.Start Process.vtable true Process.sampleDisabled).trace
      = Process.sampleDisabled.trace ++ [Call.OnResume, Call.vTaskResume 1] ∧
    (TaskCPP.Pause Process.vtable Process.sampleRunning).trace
      = Process.sampleRunning.trace ++ [Call.OnSuspend, Call.vTaskSuspend 1] ∧
    (TaskCPP.Stop Process.vtable true Process.sampleRunning).map (·.trace)
      = some (Process.sampleRunning.trace ++
          [Call.OnDestroy, Call.cleanup, Call.vTaskDelete 1]) ∧
    (TaskCPP.Stop Process.vtable true Process.sampleDisabled).map (·.trace)
      = some (Process.sampleDisabled.trace ++
          [Call.vTaskResume 1, Call.OnDestroy, Call.cleanup, Call.vTaskDelete 1]) :=
  ⟨rfl, rfl, rfl, rfl, rfl⟩

/-- C13. Resume is resume-or-start, with the hooks of any derived class and with or
without INCLUDE_vTaskDelete: it is the function resumeOrStart worded after the
specification.  From Dead it performs what Start from Dead performs (with
INCLUDE_vTaskDelete: OnStart, then xTaskCreate), then OnResume and vTaskResume of
the new handle, and ends Alive; from Suspended and from Alive it yields the very
object Start yields from that state, so state, hooks and native calls agree. -/
theorem TaskCPP.Resume_resume_or_start {ε : Type} (V : VTable ε) (d : Bool) (o : TaskCPP ε) :
    TaskCPP.Resume V d o = TaskCPP.resumeOrStart V d o ∧
    (o.TaskState = TaskStateEnum.Dead →
      (TaskCPP.Resume V d o).TaskState = TaskStateEnum.Alive ∧
      (TaskCPP.Resume V d o).trace = (TaskCPP.Start V d o).trace ++
        Call.OnResume :: (V.OnResume (TaskCPP.Start V d o).derived).2 ++
        [Call.vTaskResume (TaskCPP.Start V d o).TaskHandle] ∧
      (TaskCPP.Start V true o).trace = o.trace ++
        Call.OnStart :: (V.OnStart o.derived).2 ++
        [Call.xTaskCreate o.TaskName o.Priority] ∧
      (TaskCPP.Start V true o).TaskHandle = o.created + 1) ∧
    (o.TaskState = TaskStateEnum.Suspended →
      TaskCPP.Resume V d o = TaskCPP.Start V d o ∧
      (TaskCPP.Resume V d o).TaskState = TaskStateEnum.Alive) ∧
    (o.TaskState = TaskStateEnum.Alive →
      TaskCPP.Resume V d o = TaskCPP.Start V d o ∧ TaskCPP.Resume V d o = o) := by
  refine ⟨?_, fun hs => ?_, fun hs => ?_, fun hs => ?_⟩
  · cases hs : o.TaskState <;> cases d <;>
      simp [TaskCPP.Resume, TaskCPP.resumeOrStart, TaskCPP.resumeSuspended, TaskCPP.Start, hs]
  · refine ⟨?_, ?_, ?_, ?_⟩
    · simp [TaskCPP.Resume, TaskCPP.resumeSuspended, TaskCPP.callHook, TaskCPP.emit, hs]
    · simp [TaskCPP.Resume, TaskCPP.resumeSuspended, TaskCPP.callHook, TaskCPP.emit, hs]
    · simp [TaskCPP.Start, TaskCPP.callHook, TaskCPP.xTaskCreate, hs]
    · simp [TaskCPP.Start, TaskCPP.callHook, TaskCPP.xTaskCreate, hs]
  · simp [TaskCPP.Resume, TaskCPP.resumeSuspended, TaskCPP.Start, TaskCPP.callHook,
      TaskCPP.emit, hs]
  · simp [TaskCPP.Resume, TaskCPP.Start, hs]

/-- Resume from Dead on a fresh Process: the calls, in order. -/
theorem TaskCPP.Resume_from_Dead_run :
    (TaskCPP.Resume Process.vtable true (Process.ctor 0 TaskStateEnum.Dead 3 10)).trace
      = [Call.OnStart, Call.xTaskCreate "X" 0, Call.OnResume, Call.vTaskResume 1] ∧
    (TaskCPP.Resume Process.vtable true (Process.ctor 0 TaskStateEnum.Dead 3 10)).TaskState
      = TaskStateEnum.Alive :=
  ⟨rfl, rfl⟩

/-! ## The run loop of Process -/

/-- C14, where it fails. A Process constructed in zeroed storage is Dead with
pending action Disable; one pass of the loop on it reads Disable, invokes
onDisable(), sets the action to None and calls Pause(), which does nothing from
Dead: the state after the pass is Dead, not Suspended. -/
theorem Process.loopPass_Disable_on_Dead :
    (Process.ctor 0 TaskStateEnum.Dead 3 10).derived.PendingAction = RequestAction.Disable ∧
    ∃ q, Process.loopPass true 1 (Process.ctor 0 TaskStateEnum.Dead 3 10) = some (q, false) ∧
      q.trace = [Call.onDisable] ∧
      q.derived.PendingAction = RequestAction.None ∧
      q.TaskState = TaskStateEnum.Dead ∧
      ¬ q.TaskState = TaskStateEnum.Suspended :=
  ⟨rfl, _, rfl, rfl, rfl, rfl, by decide⟩

/-- C14 as amended. One pass of the loop, by the pending action it reads.  Enable:
onEnable() is invoked and the action becomes Run.  Disable: onDisable() is invoked,
the action becomes None and Pause() is called, which suspends an Alive task (state
Suspended, OnSuspend and vTaskSuspend) and leaves a Suspended or Dead task in its
state; service() is not invoked.  Run: service() is invoked once and the action
stays Run.  None (with INCLUDE_vTaskDelete): the task is stopped (state Dead) and
the loop executes return, without service(), onEnable() or onDisable(). -/
theorem Process.loopPass_spec (INCLUDE_vTaskDelete : Bool) (portTICK_PERIOD_MS : Nat)
    (p : Process) :
    (p.derived.PendingAction = RequestAction.Enable →
      ∃ q, Process.loopPass INCLUDE_vTaskDelete portTICK_PERIOD_MS p = some (q, false) ∧
        q.trace = p.trace ++ [Call.onEnable] ∧
        q.derived.PendingAction = RequestAction.Run ∧
        q.TaskState = p.TaskState) ∧
    (p.derived.PendingAction = RequestAction.Disable →
      ∃ q, Process.loopPass INCLUDE_vTaskDelete portTICK_PERIOD_MS p = some (q, false) ∧
        q.derived.PendingAction = RequestAction.None ∧
        serviceCount q.trace = serviceCount p.trace ∧
        (p.TaskState = TaskStateEnum.Alive →
          q.TaskState = TaskStateEnum.Suspended ∧
          q.trace = p.trace ++
            [Call.onDisable, Call.OnSuspend, Call.vTaskSuspend p.TaskHandle]) ∧
        (p.TaskState ≠ TaskStateEnum.Alive →
          q.TaskState = p.TaskState ∧ q.trace = p.trace ++ [Call.onDisable])) ∧
    (p.derived.PendingAction = RequestAction.Run →
      ∃ q, Process.loopPass INCLUDE_vTaskDelete portTICK_PERIOD_MS p = some (q, false) ∧
        q.derived.PendingAction = RequestAction.Run ∧
        serviceCount q.trace = serviceCount p.trace + 1 ∧
        q.TaskState = p.TaskState) ∧
    (p.derived.PendingAction = RequestAction.None →
      ∃ q added, Process.loopPass true portTICK_PERIOD_MS p = some (q, true) ∧
        q.TaskState = TaskStateEnum.Dead ∧
        q.derived.PendingAction = RequestAction.None ∧
        q.trace = p.trace ++ added ∧
        Call.service ∉ added ∧ Call.onEnable ∉ added ∧ Call.onDisable ∉ added) := by
  refine ⟨fun ha => ?_, fun ha => ?_, fun ha => ?_, fun ha => ?_⟩
  · exact ⟨Process.setPendingAction RequestAction.Run (TaskCPP.emit Call.onEnable p),
      by simp [Process.loopPass, ha], rfl, rfl, rfl⟩
  · cases hs : p.TaskState <;>
      simp [Process.loopPass, ha, TaskCPP.Pause, TaskCPP.emit, TaskCPP.callHook,
        Process.setPendingAction, Process.vtable, TaskCPP.vtable, serviceCount,
        List.count_cons, hs]
  · by_cases hp : p.derived.Period > 0 <;>
      simp [Process.loopPass, ha, TaskCPP.Delay, TaskCPP.emit, serviceCount,
        List.count_cons, hp]
  · cases hs : p.TaskState <;>
      simp [Process.loopPass, ha, TaskCPP.Stop, TaskCPP.stopAlive, TaskCPP.emit,
        TaskCPP.callHook, Process.vtable, Process.OnDestroy, hs]

/-- C15, evaluated where it fails. The sample running Process has period 10; with
portTICK_PERIOD_MS = 10 one Run pass requests one native delay, and Delay hands
vTaskDelay the product 10 * 10: the delay is of 100 ticks and not of 10 ticks. -/
theorem Process.Run_pass_delay_scaled :
    Process.sampleRunning.derived.PendingAction = RequestAction.Run ∧
    Process.getPeriod Process.sampleRunning = 10 ∧
    ∃ q, Process.loopPass true 10 Process.sampleRunning = some (q, false) ∧
      q.trace = Process.sampleRunning.trace ++ [Call.service, Call.vTaskDelay 100] ∧
      ¬ q.trace = Process.sampleRunning.trace ++ [Call.service, Call.vTaskDelay 10] :=
  ⟨rfl, rfl, _, rfl, rfl, by decide⟩

/-- What a Run pass of the loop with period p does, as the code has it: service()
is invoked and then no native delay is requested when p == 0, and when p > 0
exactly one native delay is requested, whose argument is the product
p * portTICK_PERIOD_MS in 32-bit unsigned arithmetic.  The argument is the period
itself, p ticks, only when portTICK_PERIOD_MS is 1 and p is a 32-bit value. -/
theorem Process.Run_pass_delay (INCLUDE_vTaskDelete : Bool) (portTICK_PERIOD_MS : Nat)
    (p : Process) (hRun : p.derived.PendingAction = RequestAction.Run) :
    ∃ q added,
      Process.loopPass INCLUDE_vTaskDelete portTICK_PERIOD_MS p = some (q, false) ∧
      q.trace = p.trace ++ added ∧
      (Process.getPeriod p = 0 → added = [Call.service] ∧ added.countP Call.isDelay = 0) ∧
      (Process.getPeriod p > 0 →
        added = [Call.service,
          Call.vTaskDelay ((Process.getPeriod p * portTICK_PERIOD_MS) % 2 ^ 32)] ∧
        added.countP Call.isDelay = 1) ∧
      (Process.getPeriod p > 0 → portTICK_PERIOD_MS = 1 → Process.getPeriod p < 2 ^ 32 →
        added = [Call.service, Call.vTaskDelay (Process.getPeriod p)]) := by
  by_cases hp : p.derived.Period > 0
  · refine ⟨TaskCPP.Delay portTICK_PERIOD_MS p.derived.Period (TaskCPP.emit Call.service p),
      [Call.service, Call.vTaskDelay ((p.derived.Period * portTICK_PERIOD_MS) % 2 ^ 32)],
      ?_, ?_, ?_, ?_, ?_⟩
    · simp [Process.loopPass, hRun, TaskCPP.emit, hp]
    · simp [TaskCPP.Delay, TaskCPP.emit]
    · intro h0
      simp only [Process.getPeriod] at h0
      omega
    · intro _
      exact ⟨rfl, by simp [Call.isDelay]⟩
    · intro _ h1 hlt
      simp only [Process.getPeriod] at hlt
      subst h1
      simp only [Process.getPeriod, Nat.mul_one, Nat.mod_eq_of_lt hlt]
  · have h0 : p.derived.Period = 0 := by omega
    refine ⟨TaskCPP.emit Call.service p, [Call.service], ?_, ?_, ?_, ?_, ?_⟩
    · simp [Process.loopPass, hRun, TaskCPP.emit, h0]
    · simp [TaskCPP.emit]
    · intro _
      exact ⟨rfl, by simp [Call.isDelay]⟩
    · intro h
      simp only [Process.getPeriod] at h
      omega
    · intro h
      simp only [Process.getPeriod] at h
      omega

/-- The Run pass at the sample running Process with portTICK_PERIOD_MS = 10. -/
theorem Process.Run_pass_delay_witness :
    Process.sampleRunning.derived.PendingAction = RequestAction.Run ∧
    ∃ q added,
      Process.loopPass true 10 Process.sampleRunning = some (q, false) ∧
      q.trace = Process.sampleRunning.trace ++ added ∧
      (Process.getPeriod Process.sampleRunning = 0 →
        added = [Call.service] ∧ added.countP Call.isDelay = 0) ∧
      (Process.getPeriod Process.sampleRunning > 0 →
        added = [Call.service,
          Call.vTaskDelay ((Process.getPeriod Process.sampleRunning * 10) % 2 ^ 32)] ∧
        added.countP Call.isDelay = 1) ∧
      (Process.getPeriod Process.sampleRunning > 0 → 10 = 1 →
        Process.getPeriod Process.sampleRunning < 2 ^ 32 →
        added = [Call.service, Call.vTaskDelay (Process.getPeriod Process.sampleRunning)]) :=
  ⟨rfl, Process.Run_pass_delay true 10 Process.sampleRunning rfl⟩

/-- With INCLUDE_vTaskDelete every pass of the loop returns. -/
theorem Process.loopPass_returns (tick : Nat) (p : Process) :
    ∃ r, Process.loopPass true tick p = some r := by
  cases ha : p.derived.PendingAction <;> cases hs : p.TaskState <;>
    simp [Process.loopPass, ha, hs, TaskCPP.Stop, TaskCPP.stopAlive]

/-- OnRun on a Process added enabled whose loop is left to run on its own: three
passes are reached and the trace holds setup() once, before onEnable() and every
service(). -/
theorem Process.OnRun_enabled_run :
    (Process.passes true 1 3
      (Process.OnRunEntry (Process.add true true (Process.ctor 0 TaskStateEnum.Dead 3 10)))).map
      (fun r => r.1.trace)
      = some [Call.OnStart, Call.xTaskCreate "X" 0, Call.setup, Call.onEnable,
          Call.service, Call.vTaskDelay 10, Call.service, Call.vTaskDelay 10] :=
  rfl

/-! ## Executions of a Process: calls from outside next to the run loop -/

/-- Start on a Process adds no service() call and leaves the pending action as it
is or sets it to Enable. -/
theorem Process.Start_effect (d : Bool) (p : Process) :
    serviceCount (TaskCPP.Start Process.vtable d p).trace = serviceCount p.trace ∧
    ((TaskCPP.Start Process.vtable d p).derived.PendingAction = p.derived.PendingAction ∨
      (TaskCPP.Start Process.vtable d p).derived.PendingAction = RequestAction.Enable) := by
  cases hs : p.TaskState <;> cases d <;>
    simp [TaskCPP.Start, TaskCPP.callHook, TaskCPP.emit, TaskCPP.xTaskCreate, Process.vtable,
      TaskCPP.vtable, Process.OnResume, serviceCount, List.count_cons, hs]
  split <;> simp [List.count_cons]

/-- Pause on a Process adds no service() call and leaves the pending action. -/
theorem Process.Pause_effect (p : Process) :
    serviceCount (TaskCPP.Pause Process.vtable p).trace = serviceCount p.trace ∧
    (TaskCPP.Pause Process.vtable p).derived.PendingAction = p.derived.PendingAction := by
  cases hs : p.TaskState <;>
    simp [TaskCPP.Pause, TaskCPP.callHook, TaskCPP.emit, Process.vtable, TaskCPP.vtable,
      serviceCount, List.count_cons, hs]

/-- The Suspended path of Resume on a Process adds no service() call and arms
Enable. -/
theorem Process.resumeSuspended_effect (p : Process) :
    serviceCount (TaskCPP.resumeSuspended Process.vtable p).trace = serviceCount p.trace ∧
    (TaskCPP.resumeSuspended Process.vtable p).derived.PendingAction = RequestAction.Enable := by
  simp [TaskCPP.resumeSuspended, TaskCPP.callHook, TaskCPP.emit, Process.vtable,
    Process.OnResume, serviceCount, List.count_cons]

/-- Resume on a Process adds no service() call and leaves the pending action as it
is or sets it to Enable. -/
theorem Process.Resume_effect (d : Bool) (p : Process) :
    serviceCount (TaskCPP.Resume Process.vtable d p).trace = serviceCount p.trace ∧
    ((TaskCPP.Resume Process.vtable d p).derived.PendingAction = p.derived.PendingAction ∨
      (TaskCPP.Resume Process.vtable d p).derived.PendingAction = RequestAction.Enable) := by
  cases hs : p.TaskState
  · simp only [TaskCPP.Resume, hs]
    exact ⟨by rw [(Process.resumeSuspended_effect _).1, (Process.Start_effect d p).1],
      Or.inr (Process.resumeSuspended_effect _).2⟩
  · simp [TaskCPP.Resume, hs]
  · simp only [TaskCPP.Resume, hs]
    exact ⟨(Process.resumeSuspended_effect _).1, Or.inr (Process.resumeSuspended_effect _).2⟩

/-- Stop on a Process, when it returns, has added no service() call and has left
the pending action. -/
theorem Process.Stop_effect (d : Bool) (p q : Process)
    (h : TaskCPP.Stop Process.vtable d p = some q) :
    serviceCount q.trace = serviceCount p.trace ∧
    q.derived.PendingAction = p.derived.PendingAction := by
  have key : (TaskCPP.Stop Process.vtable d p).elim True (fun q =>
      serviceCount q.trace = serviceCount p.trace ∧
      q.derived.PendingAction = p.derived.PendingAction) := by
    cases hs : p.TaskState <;> cases d <;>
      simp [TaskCPP.Stop, TaskCPP.stopAlive, TaskCPP.callHook, TaskCPP.emit, Process.vtable,
        Process.OnDestroy, serviceCount, List.count_cons, hs] <;>
      split <;> simp [List.count_cons] <;> split <;> simp
  rw [h] at key
  exact key

/-- One pass of the loop, when it returns: it adds one service() call when it reads
Run and none otherwise; and the pending action after it is Run only when it was Run
before, or when it was Enable and the pass has added just onEnable(). -/
theorem Process.loopPass_effect (d : Bool) (tick : Nat) (p q : Process) (b : Bool)
    (h : Process.loopPass d tick p = some (q, b)) :
    serviceCount q.trace = serviceCount p.trace +
      (if p.derived.PendingAction = RequestAction.Run then 1 else 0) ∧
    (q.derived.PendingAction = RequestAction.Run →
      p.derived.PendingAction = RequestAction.Run ∨
      (p.derived.PendingAction = RequestAction.Enable ∧
        q.trace = p.trace ++ [Call.onEnable])) ∧
    (p.derived.PendingAction = RequestAction.Disable ∨
        p.derived.PendingAction = RequestAction.None →
      q.derived.PendingAction = RequestAction.None) := by
  cases ha : p.derived.PendingAction
  · -- None
    simp only [Process.loopPass, ha, Option.map_eq_some', Prod.mk.injEq] at h
    obtain ⟨r, hr, hq, _⟩ := h
    subst hq
    have hs := Process.Stop_effect d p r hr
    simp [hs.1, hs.2, ha]
  · -- Enable
    simp only [Process.loopPass, ha, Option.some.injEq, Prod.mk.injEq] at h
    obtain ⟨hq, _⟩ := h
    subst hq
    simp [Process.setPendingAction, TaskCPP.emit, serviceCount, List.count_cons]
  · -- Disable
    simp only [Process.loopPass, ha, Option.some.injEq, Prod.mk.injEq] at h
    obtain ⟨hq, _⟩ := h
    subst hq
    have hp := Process.Pause_effect
      (Process.setPendingAction RequestAction.None (TaskCPP.emit Call.onDisable p))
    rw [hp.1, hp.2]
    simp [Process.setPendingAction, TaskCPP.emit, serviceCount, List.count_cons]
  · -- Run
    simp only [Process.loopPass, ha, Option.some.injEq, Prod.mk.injEq] at h
    obtain ⟨hq, _⟩ := h
    subst hq
    split <;>
      simp [TaskCPP.Delay, TaskCPP.emit, serviceCount, List.count_cons, ha]

/-- An event that returns adds one service() call to the trace when it is a pass of
the loop that reads pending action Run, and none otherwise. -/
theorem Process.step_serviceCount (d : Bool) (tick : Nat) (e : Process.Event)
    (p q : Process) (h : Process.step d tick e p = some q) :
    serviceCount q.trace = serviceCount p.trace +
      (if e = Process.Event.pass ∧ p.derived.PendingAction = RequestAction.Run
        then 1 else 0) := by
  cases e with
  | add b =>
    simp only [Process.step, Option.some.injEq] at h
    subst h
    cases b
    · simp [Process.add, (Process.Pause_effect _).1, Process.setPendingAction,
        (Process.Start_effect d p).1]
    · simp [Process.add, Process.setPendingAction, (Process.Start_effect d p).1]
  | enable =>
    simp only [Process.step, Option.some.injEq] at h
    subst h
    simp [Process.enable, (Process.Resume_effect d p).1]
  | disable =>
    simp only [Process.step, Option.some.injEq] at h
    subst h
    simp [Process.disable, Process.setPendingAction]
  | restart =>
    simp only [Process.step, Process.restart, Option.map_eq_some'] at h
    obtain ⟨r, hr, hq⟩ := h
    subst hq
    simp [(Process.Start_effect d _).1, Process.setPendingAction,
      (Process.Stop_effect d p r hr).1]
  | destroy =>
    simp only [Process.step, Option.some.injEq] at h
    subst h
    simp [Process.destroy, Process.setPendingAction]
  | setPeriod n =>
    simp only [Process.step, Option.some.injEq] at h
    subst h
    simp [Process.setPeriod]
  | entry =>
    simp only [Process.step, Option.some.injEq] at h
    subst h
    have hP := (Process.Pause_effect p).1
    simp only [serviceCount] at hP
    simp only [Process.OnRunEntry]
    split <;> simp [TaskCPP.emit, serviceCount, List.count_cons, List.count_append, hP]
  | pass =>
    simp only [Process.step, Option.map_eq_some'] at h
    obtain ⟨⟨r, b⟩, hr, hq⟩ := h
    simp only at hq
    subst hq
    simpa using (Process.loopPass_effect d tick p r b hr).1

/-- An event that returns leaves pending action Run only when Run was pending
before, or when it is a pass of the loop that has read Enable and added just
onEnable(). -/
theorem Process.step_arms_Run (d : Bool) (tick : Nat) (e : Process.Event)
    (p q : Process) (h : Process.step d tick e p = some q)
    (hq : q.derived.PendingAction = RequestAction.Run) :
    p.derived.PendingAction = RequestAction.Run ∨
    (e = Process.Event.pass ∧ p.derived.PendingAction = RequestAction.Enable ∧
      q.trace = p.trace ++ [Call.onEnable]) := by
  cases e with
  | add b =>
    simp only [Process.step, Option.some.injEq] at h
    subst h
    cases b
    · simp [Process.add, (Process.Pause_effect _).2, Process.setPendingAction] at hq
    · simp [Process.add, Process.setPendingAction] at hq
  | enable =>
    simp only [Process.step, Option.some.injEq] at h
    subst h
    rcases (Process.Resume_effect d p).2 with h1 | h1
    · left
      rw [← h1]
      exact hq
    · simp [Process.enable, h1] at hq
  | disable =>
    simp only [Process.step, Option.some.injEq] at h
    subst h
    simp [Process.disable, Process.setPendingAction] at hq
  | restart =>
    simp only [Process.step, Process.restart, Option.map_eq_some'] at h
    obtain ⟨r, _, hr⟩ := h
    subst hr
    rcases (Process.Start_effect d (Process.setPendingAction RequestAction.Enable r)).2
      with h1 | h1
    · rw [h1] at hq
      simp [Process.setPendingAction] at hq
    · rw [h1] at hq
      simp at hq
  | destroy =>
    simp only [Process.step, Option.some.injEq] at h
    subst h
    simp [Process.destroy, Process.setPendingAction] at hq
  | setPeriod n =>
    simp only [Process.step, Option.some.injEq] at h
    subst h
    left
    exact hq
  | entry =>
    simp only [Process.step, Option.some.injEq] at h
    subst h
    left
    simp only [Process.OnRunEntry, TaskCPP.emit] at hq
    split at hq
    · rw [(Process.Pause_effect p).2] at hq
      exact hq
    · exact hq
  | pass =>
    simp only [Process.step, Option.map_eq_some'] at h
    obtain ⟨⟨r, b⟩, hr, hrq⟩ := h
    simp only at hrq
    subst hrq
    rcases (Process.loopPass_effect d tick p r b hr).2.1 hq with h1 | h1
    · exact Or.inl h1
    · exact Or.inr ⟨rfl, h1⟩

/-- A quiet event (disable(), destroy(), setPeriod(), the entry of OnRun, a pass of
the loop) that returns, from pending action Disable or None, leaves pending action
Disable or None and adds no service() call. -/
theorem Process.step_quiet (d : Bool) (tick : Nat) (e : Process.Event)
    (p q : Process) (he : e.quiet = true) (h : Process.step d tick e p = some q)
    (hp : p.derived.PendingAction = RequestAction.Disable ∨
      p.derived.PendingAction = RequestAction.None) :
    (q.derived.PendingAction = RequestAction.Disable ∨
      q.derived.PendingAction = RequestAction.None) ∧
    serviceCount q.trace = serviceCount p.trace := by
  have hcount := Process.step_serviceCount d tick e p q h
  have hnotRun : ¬ p.derived.PendingAction = RequestAction.Run := by
    rcases hp with hp | hp <;> simp [hp]
  refine ⟨?_, by simpa [hnotRun] using hcount⟩
  cases e with
  | add b => simp [Process.Event.quiet] at he
  | enable => simp [Process.Event.quiet] at he
  | restart => simp [Process.Event.quiet] at he
  | disable =>
    simp only [Process.step, Option.some.injEq] at h
    subst h
    exact Or.inl rfl
  | destroy =>
    simp only [Process.step, Option.some.injEq] at h
    subst h
    exact Or.inr rfl
  | setPeriod n =>
    simp only [Process.step, Option.some.injEq] at h
    subst h
    exact hp
  | entry =>
    simp only [Process.step, Option.some.injEq] at h
    subst h
    simp only [Process.OnRunEntry, TaskCPP.emit]
    split
    · rw [(Process.Pause_effect p).2]
      exact hp
    · exact hp
  | pass =>
    simp only [Process.step, Option.map_eq_some'] at h
    obtain ⟨⟨r, b⟩, hr, hrq⟩ := h
    simp only at hrq
    subst hrq
    exact Or.inr ((Process.loopPass_effect d tick p r b hr).2.2 hp)

/-- An execution of quiet events that returns, from pending action Disable or None,
ends with pending action Disable or None and has added no service() call. -/
theorem Process.steps_quiet (d : Bool) (tick : Nat) (es : List Process.Event)
    (p q : Process) (he : ∀ e ∈ es, e.quiet = true)
    (h : Process.steps d tick es p = some q)
    (hp : p.derived.PendingAction = RequestAction.Disable ∨
      p.derived.PendingAction = RequestAction.None) :
    (q.derived.PendingAction = RequestAction.Disable ∨
      q.derived.PendingAction = RequestAction.None) ∧
    serviceCount q.trace = serviceCount p.trace := by
  induction es generalizing p with
  | nil =>
    simp only [Process.steps, Option.some.injEq] at h
    subst h
    exact ⟨hp, rfl⟩
  | cons e es ih =>
    simp only [Process.steps] at h
    cases hs : Process.step d tick e p with
    | none => simp [hs] at h
    | some r =>
      simp only [hs, Option.some_bind] at h
      have h1 := Process.step_quiet d tick e p r (he e (List.mem_cons_self _ _)) hs hp
      have h2 := ih r (fun e' he' => he e' (List.mem_cons_of_mem _ he')) h h1.1
      exact ⟨h2.1, by rw [h2.2, h1.2]⟩

/-- With INCLUDE_vTaskDelete every execution of quiet events returns. -/
theorem Process.steps_quiet_returns (tick : Nat) (es : List Process.Event) (p : Process)
    (he : ∀ e ∈ es, e.quiet = true) : ∃ q, Process.steps true tick es p = some q := by
  induction es generalizing p with
  | nil => exact ⟨p, rfl⟩
  | cons e es ih =>
    have hstep : ∃ r, Process.step true tick e p = some r := by
      cases e with
      | pass =>
        obtain ⟨r, hr⟩ := Process.loopPass_returns tick p
        exact ⟨r.1, by simp [Process.step, hr]⟩
      | restart =>
        have := he Process.Event.restart (List.mem_cons_self _ _)
        simp [Process.Event.quiet] at this
      | _ => exact ⟨_, rfl⟩
    obtain ⟨r, hr⟩ := hstep
    obtain ⟨q, hq⟩ := ih r (fun e' he' => he e' (List.mem_cons_of_mem _ he'))
    exact ⟨q, by simp [Process.steps, hr, hq]⟩

/-- After add(false) the pending action is Disable and no service() call has been
added. -/
theorem Process.add_false_effect (d : Bool) (p : Process) :
    (Process.add d false p).derived.PendingAction = RequestAction.Disable ∧
    serviceCount (Process.add d false p).trace = serviceCount p.trace := by
  refine ⟨?_, ?_⟩
  · simp [Process.add, (Process.Pause_effect _).2, Process.setPendingAction]
  · simpa using Process.step_serviceCount d 0 (Process.Event.add false) p _ rfl

/-- C17. After add(false) on a Process, freshly constructed by either constructor
or not, in every execution in which the run loop (entry of OnRun, passes) runs
next to external calls of disable(), destroy() and setPeriod() only, service() is
never invoked: the number of service() calls in the trace stays what it was, 0 for
a fresh Process; with INCLUDE_vTaskDelete every such execution is reached.  More
generally an event adds a service() call only when it is a loop pass that reads
pending action Run, and then exactly one; pending action Run is written only by a
loop pass that reads Enable and invokes onEnable(); and a loop pass that reads
Disable invokes onDisable() and leaves None without invoking service(), after which
no service() call follows as long as only the loop and disable(), destroy(),
setPeriod() act. -/
theorem Process.service_only_when_Run (INCLUDE_vTaskDelete : Bool)
    (portTICK_PERIOD_MS : Nat) :
    (∀ (p : Process) (es : List Process.Event), (∀ e ∈ es, e.quiet = true) →
      (∃ q, Process.steps true portTICK_PERIOD_MS es (Process.add true false p) = some q) ∧
      (∀ q, Process.steps INCLUDE_vTaskDelete portTICK_PERIOD_MS es
          (Process.add INCLUDE_vTaskDelete false p) = some q →
        serviceCount q.trace = serviceCount p.trace)) ∧
    (∀ (tskIDLE_PRIORITY : Nat) (uninit : TaskStateEnum) (b : ProcPriority)
        (taskName : String) (priority period : Nat) (es : List Process.Event),
      (∀ e ∈ es, e.quiet = true) →
      (∀ q, Process.steps INCLUDE_vTaskDelete portTICK_PERIOD_MS es
          (Process.add INCLUDE_vTaskDelete false
            (Process.ctor tskIDLE_PRIORITY uninit b period)) = some q →
        serviceCount q.trace = 0) ∧
      (∀ q, Process.steps INCLUDE_vTaskDelete portTICK_PERIOD_MS es
          (Process.add INCLUDE_vTaskDelete false
            (Process.ctorNamed uninit taskName priority period)) = some q →
        serviceCount q.trace = 0)) ∧
    (∀ (e : Process.Event) (p q : Process),
      Process.step INCLUDE_vTaskDelete portTICK_PERIOD_MS e p = some q →
      serviceCount q.trace = serviceCount p.trace +
        (if e = Process.Event.pass ∧ p.derived.PendingAction = RequestAction.Run
          then 1 else 0)) ∧
    (∀ (e : Process.Event) (p q : Process),
      Process.step INCLUDE_vTaskDelete portTICK_PERIOD_MS e p = some q →
      q.derived.PendingAction = RequestAction.Run →
      p.derived.PendingAction = RequestAction.Run ∨
      (e = Process.Event.pass ∧ p.derived.PendingAction = RequestAction.Enable ∧
        q.trace = p.trace ++ [Call.onEnable])) ∧
    (∀ (p q : Process), p.derived.PendingAction = RequestAction.Disable →
      Process.step INCLUDE_vTaskDelete portTICK_PERIOD_MS Process.Event.pass p = some q →
      q.derived.PendingAction = RequestAction.None ∧
      serviceCount q.trace = serviceCount p.trace ∧
      (∃ added, q.trace = p.trace ++ Call.onDisable :: added) ∧
      (∀ (es : List Process.Event) (r : Process), (∀ e ∈ es, e.quiet = true) →
        Process.steps INCLUDE_vTaskDelete portTICK_PERIOD_MS es q = some r →
        serviceCount r.trace = serviceCount p.trace)) := by
  have hA : ∀ (p : Process) (es : List Process.Event), (∀ e ∈ es, e.quiet = true) →
      ∀ q, Process.steps INCLUDE_vTaskDelete portTICK_PERIOD_MS es
          (Process.add INCLUDE_vTaskDelete false p) = some q →
        serviceCount q.trace = serviceCount p.trace := by
    intro p es he q h
    have hadd := Process.add_false_effect INCLUDE_vTaskDelete p
    rw [(Process.steps_quiet _ _ es _ q he h (Or.inl hadd.1)).2, hadd.2]
  refine ⟨fun p es he => ⟨Process.steps_quiet_returns _ es _ he, hA p es he⟩, ?_, ?_, ?_, ?_⟩
  · intro idle uninit b name prio period es he
    exact ⟨fun q h => by rw [hA _ es he q h]; rfl, fun q h => by rw [hA _ es he q h]; rfl⟩
  · exact fun e p q h => Process.step_serviceCount _ _ e p q h
  · exact fun e p q h hq => Process.step_arms_Run _ _ e p q h hq
  · intro p q ha h
    have hq := Process.step_quiet _ _ Process.Event.pass p q rfl h (Or.inl ha)
    have hnone : q.derived.PendingAction = RequestAction.None := by
      simp only [Process.step, Option.map_eq_some'] at h
      obtain ⟨⟨r, b⟩, hr, hrq⟩ := h
      simp only at hrq
      subst hrq
      exact (Process.loopPass_effect _ _ p r b hr).2.2 (Or.inl ha)
    refine ⟨hnone, hq.2, ?_, ?_⟩
    · simp only [Process.step, Process.loopPass, ha, Option.map_some', Option.some.injEq] at h
      subst h
      cases hs : p.TaskState <;>
        simp [TaskCPP.Pause, TaskCPP.emit, TaskCPP.callHook, Process.setPendingAction,
          Process.vtable, TaskCPP.vtable, hs]
    · intro es r he hr
      rw [(Process.steps_quiet _ _ es q r he hr (Or.inr hnone)).2, hq.2]

/-- An execution after add(false) on a fresh Process: the loop runs next to
disable(), setPeriod() and destroy(); the trace holds no service(). -/
theorem Process.quiet_run :
    (Process.steps true 1
      [Process.Event.entry, Process.Event.pass, Process.Event.disable,
        Process.Event.setPeriod 5, Process.Event.pass, Process.Event.destroy,
        Process.Event.pass]
      (Process.add true false (Process.ctor 0 TaskStateEnum.Dead 3 10))).map (·.trace)
      = some [Call.OnStart, Call.xTaskCreate "X" 0, Call.OnSuspend, Call.vTaskSuspend 1,
          Call.setup, Call.onDisable, Call.onDisable, Call.vTaskResume 1, Call.OnDestroy,
          Call.cleanup, Call.vTaskDelete 1] :=
  rfl

/-! ## Priority bands -/

/-- C18. For every number N >= 1 of priority levels the formulas of enum
TaskPriority yield the values of the documented table: Idle = 0; Low = 0 for N = 1
and 1 otherwise; HMI = Low for N <= 5 and 2 for N >= 6; Mid = N / 2 (integer
division); High = N - 1 for N <= 4 and N - 2 for N >= 5; Highest = N - 1; and all
six bands are 0 when N = 1. -/
theorem TaskPriority_values (N : Nat) (hN : 1 ≤ N) :
    TaskPrio_Idle = 0 ∧
    TaskPrio_Low (N : Int) = (if N = 1 then 0 else 1) ∧
    TaskPrio_HMI (N : Int) = (if N ≤ 5 then TaskPrio_Low (N : Int) else 2) ∧
    TaskPrio_Mid (N : Int) = ((N / 2 : Nat) : Int) ∧
    TaskPrio_High (N : Int) = (if N ≤ 4 then (N : Int) - 1 else (N : Int) - 2) ∧
    TaskPrio_Highest (N : Int) = (N : Int) - 1 ∧
    (N = 1 → TaskPrio_Idle = 0 ∧ TaskPrio_Low (N : Int) = 0 ∧ TaskPrio_HMI (N : Int) = 0 ∧
      TaskPrio_Mid (N : Int) = 0 ∧ TaskPrio_High (N : Int) = 0 ∧
      TaskPrio_Highest (N : Int) = 0) := by
  have hmid : TaskPrio_Mid (N : Int) = ((N / 2 : Nat) : Int) := by
    unfold TaskPrio_Mid
    rw [Int.tdiv_eq_ediv (by omega) (by omega)]
    omega
  refine ⟨rfl, ?_, ?_, hmid, ?_, rfl, ?_⟩
  · simp only [TaskPrio_Low, boolToInt, decide_eq_true_eq]
    split_ifs <;> omega
  · simp only [TaskPrio_HMI, TaskPrio_Low, boolToInt, decide_eq_true_eq]
    split_ifs <;> omega
  · simp only [TaskPrio_High, boolToInt, decide_eq_true_eq]
    split_ifs <;> omega
  · intro h1
    subst h1
    refine ⟨rfl, by decide, by decide, by decide, by decide, by decide⟩

/-- C18 at N = 5. -/
theorem TaskPriority_values_witness :
    1 ≤ 5 ∧
    (TaskPrio_Idle = 0 ∧
    TaskPrio_Low ((5 : Nat) : Int) = (if 5 = 1 then 0 else 1) ∧
    TaskPrio_HMI ((5 : Nat) : Int) = (if 5 ≤ 5 then TaskPrio_Low ((5 : Nat) : Int) else 2) ∧
    TaskPrio_Mid ((5 : Nat) : Int) = ((5 / 2 : Nat) : Int) ∧
    TaskPrio_High ((5 : Nat) : Int)
      = (if 5 ≤ 4 then ((5 : Nat) : Int) - 1 else ((5 : Nat) : Int) - 2) ∧
    TaskPrio_Highest ((5 : Nat) : Int) = ((5 : Nat) : Int) - 1 ∧
    (5 = 1 → TaskPrio_Idle = 0 ∧ TaskPrio_Low ((5 : Nat) : Int) = 0 ∧
      TaskPrio_HMI ((5 : Nat) : Int) = 0 ∧
      TaskPrio_Mid ((5 : Nat) : Int) = 0 ∧ TaskPrio_High ((5 : Nat) : Int) = 0 ∧
      TaskPrio_Highest ((5 : Nat) : Int) = 0)) :=
  ⟨by decide, TaskPriority_values 5 (by decide)⟩

/-- The columns 1 to 6 of the documented table (TaskCPP.h 53-62), rows Idle, Low,
HMI, Mid, High, Highest. -/
theorem TaskPriority_table :
    [1, 2, 3, 4, 5, 6].map (fun _ : Int => TaskPrio_Idle) = [0, 0, 0, 0, 0, 0] ∧
    [1, 2, 3, 4, 5, 6].map TaskPrio_Low = [0, 1, 1, 1, 1, 1] ∧
    [1, 2, 3, 4, 5, 6].map TaskPrio_HMI = [0, 1, 1, 1, 1, 2] ∧
    [1, 2, 3, 4, 5, 6].map TaskPrio_Mid = [0, 1, 1, 2, 2, 3] ∧
    [1, 2, 3, 4, 5, 6].map TaskPrio_High = [0, 1, 2, 3, 3, 4] ∧
    [1, 2, 3, 4, 5, 6].map TaskPrio_Highest = [0, 1, 2, 3, 4, 5] := by
  refine ⟨by decide, by decide, by decide, by decide, by decide, by decide⟩

/-! ## The named constructor; destroy() on a disabled Process -/

/-- C19. For a Process built with the named constructor, in any storage and for
every priority and period: getPriority() returns IDLE_PRIORITY, GetPriority() of
the task returns the priority passed in, and Start() from Dead passes that
priority to xTaskCreate. -/
theorem Process.ctorNamed_priorities (uninit : TaskStateEnum) (taskName : String)
    (priority period : Nat) :
    Process.getPriority (Process.ctorNamed uninit taskName priority period) = IDLE_PRIORITY ∧
    TaskCPP.GetPriority (Process.ctorNamed uninit taskName priority period) = priority ∧
    (TaskCPP.Start Process.vtable true
      (Process.ctorNamed TaskStateEnum.Dead taskName priority period)).trace
      = [Call.OnStart, Call.xTaskCreate taskName priority] :=
  ⟨rfl, rfl, rfl⟩

/-- The sample disabled Process is reached by the code: construction, add(true),
the entry of OnRun, disable() and one pass of the loop. -/
theorem Process.sampleDisabled_reached :
    Process.loopPass true 1
      (Process.disable
        (Process.OnRunEntry (Process.add true true (Process.ctor 0 TaskStateEnum.Dead 3 10))))
      = some (Process.sampleDisabled, false) := rfl

/-- C20. For a Process whose loop has consumed a Disable (task Suspended, pending
action None): destroy() changes nothing at all, the state stays Suspended,
isNotDestroyed() stays true and no cleanup() is recorded; a subsequent enable()
resumes the task (OnResume, vTaskResume; state Alive) and arms Enable, so
isEnabled() is true, and the next pass of the loop invokes onEnable(), arms Run and
goes on, the task staying Alive instead of being stopped. -/
theorem Process.destroy_when_disabled (INCLUDE_vTaskDelete : Bool)
    (portTICK_PERIOD_MS : Nat) (p : Process)
    (hSuspended : p.TaskState = TaskStateEnum.Suspended)
    (hNone : p.derived.PendingAction = RequestAction.None) :
    Process.destroy p = p ∧
    (Process.destroy p).TaskState = TaskStateEnum.Suspended ∧
    Process.isNotDestroyed (Process.destroy p) = true ∧
    (Process.destroy p).trace = p.trace ∧
    cleanupCount (Process.destroy p).trace = cleanupCount p.trace ∧
    (Process.enable INCLUDE_vTaskDelete (Process.destroy p)).derived.PendingAction
      = RequestAction.Enable ∧
    Process.isEnabled (Process.enable INCLUDE_vTaskDelete (Process.destroy p)) = true ∧
    (Process.enable INCLUDE_vTaskDelete (Process.destroy p)).TaskState = TaskStateEnum.Alive ∧
    (Process.enable INCLUDE_vTaskDelete (Process.destroy p)).trace
      = p.trace ++ [Call.OnResume, Call.vTaskResume p.TaskHandle] ∧
    ∃ q, Process.loopPass INCLUDE_vTaskDelete portTICK_PERIOD_MS
        (Process.enable INCLUDE_vTaskDelete (Process.destroy p)) = some (q, false) ∧
      q.trace = (Process.enable INCLUDE_vTaskDelete (Process.destroy p)).trace
        ++ [Call.onEnable] ∧
      q.TaskState = TaskStateEnum.Alive ∧
      q.derived.PendingAction = RequestAction.Run := by
  have hd : Process.destroy p = p := by
    cases p with
    | mk s n pr h d t c =>
      cases d with
      | mk a per prio =>
        simp only at hNone
        subst hNone
        rfl
  rw [hd]
  have he : (Process.enable INCLUDE_vTaskDelete p).derived.PendingAction
      = RequestAction.Enable := by
    simp [Process.enable, TaskCPP.Resume, TaskCPP.resumeSuspended, TaskCPP.callHook,
      TaskCPP.emit, Process.vtable, Process.OnResume, hSuspended]
  have hst : (Process.enable INCLUDE_vTaskDelete p).TaskState = TaskStateEnum.Alive := by
    simp [Process.enable, TaskCPP.Resume, TaskCPP.resumeSuspended, TaskCPP.callHook,
      TaskCPP.emit, hSuspended]
  refine ⟨rfl, hSuspended, ?_, rfl, rfl, he, ?_, hst, ?_, ?_⟩
  · simp [Process.isNotDestroyed, TaskCPP.IsAlive, hSuspended]
  · simp [Process.isEnabled, TaskCPP.IsAlive, he, hst]
  · simp [Process.enable, TaskCPP.Resume, TaskCPP.resumeSuspended, TaskCPP.callHook,
      TaskCPP.emit, Process.vtable, Process.OnResume, hSuspended]
  · refine ⟨Process.setPendingAction RequestAction.Run
      (TaskCPP.emit Call.onEnable (Process.enable INCLUDE_vTaskDelete p)), ?_, rfl, hst, rfl⟩
    simp [Process.loopPass, he]

/-- C20 at the sample disabled Process, with INCLUDE_vTaskDelete and tick period 1. -/
theorem Process.destroy_when_disabled_witness :
    Process.sampleDisabled.TaskState = TaskStateEnum.Suspended ∧
    Process.sampleDisabled.derived.PendingAction = RequestAction.None ∧
    (Process.destroy Process.sampleDisabled = Process.sampleDisabled ∧
    (Process.destroy Process.sampleDisabled).TaskState = TaskStateEnum.Suspended ∧
    Process.isNotDestroyed (Process.destroy Process.sampleDisabled) = true ∧
    (Process.destroy Process.sampleDisabled).trace = Process.sampleDisabled.trace ∧
    cleanupCount (Process.destroy Process.sampleDisabled).trace
      = cleanupCount Process.sampleDisabled.trace ∧
    (Process.enable true (Process.destroy Process.sampleDisabled)).derived.PendingAction
      = RequestAction.Enable ∧
    Process.isEnabled (Process.enable true (Process.destroy Process.sampleDisabled)) = true ∧
    (Process.enable true (Process.destroy Process.sampleDisabled)).TaskState
      = TaskStateEnum.Alive ∧
    (Process.enable true (Process.destroy Process.sampleDisabled)).trace
      = Process.sampleDisabled.trace ++
        [Call.OnResume, Call.vTaskResume Process.sampleDisabled.TaskHandle] ∧
    ∃ q, Process.loopPass true 1
        (Process.enable true (Process.destroy Process.sampleDisabled)) = some (q, false) ∧
      q.trace = (Process.enable true (Process.destroy Process.sampleDisabled)).trace
        ++ [Call.onEnable] ∧
      q.TaskState = TaskStateEnum.Alive ∧
      q.derived.PendingAction = RequestAction.Run) :=
  ⟨rfl, rfl, Process.destroy_when_disabled true 1 Process.sampleDisabled rfl rfl⟩
